import Mathlib

/-!
kivik: client facade, driver registry, cookie authentication and backends

A shallow embedding of `kivik.go` (the client facade over a backend driver),
`auth/cookie/cookie.go` (the cookie session handler),
`authdb/confadmin/confadmin.go` (the store of configured administrators),
`driver/pouchdb/pouchdb.go` and `driver/pouchdb/find.go` (the PouchDB client
and its find-result iterator), `attachments.go` and
`serve/config/memconf/memconf.go` (the in-memory configuration), with the
properties of the specification stated and proved over it.

Conventions of the embedding:

* a Go `error` is `Option GoError` (`none` is the nil error);
* a Go pointer or slice result that may be nil is an `Option`;
* a method of a backend is a function on an explicit backend state `σ`, and
  every invocation made by the facade is recorded in a list of calls, so that
  "the backend is not called" is a statement about that list and that state;
* Go strings are `String`; byte sequences that are not valid UTF-8 have no
  counterpart here.
-/

set_option autoImplicit false

namespace Kivik

/-! ## Errors -/

/-- A Go error value: an HTTP-status error built by `errors.Status`, an error
with a message only (built by `fmt.Errorf` or `errors.New`), the
`*strconv.NumError` of a failed conversion, or an error wrapped with a message
by `errors.Wrap`. -/
inductive GoError where
  | status (code : Nat) (msg : String)
  | plain (msg : String)
  | numError (fn num reason : String)
  | wrap (cause : GoError) (msg : String)
  deriving DecidableEq, Repr

/-- Modelled from the spec: the status constants are declared outside the
sources at hand and mirror those of `net/http`. This one is
`http.StatusBadRequest`, also used as `errors.StatusBadRequest` and
`kivik.StatusBadRequest`; the specification's BadRequest. -/
def StatusBadRequest : Nat := 400

/-- Modelled from the spec: the constant `kivik.StatusFound`, the "redirect
status" of a login with a redirect target. -/
def StatusFound : Nat := 302

/-- Modelled from the spec: the constant `kivik.StatusNotFound`, the
specification's NotFound. -/
def StatusNotFound : Nat := 404

/-- Modelled from the spec: the constant `kivik.StatusNotImplemented`, the
specification's NotImplemented. -/
def StatusNotImplemented : Nat := 501

/-- Modelled from the spec: the sentinel `ErrNotImplemented` is declared in a
file of the package that is not part of the sources at hand; the specification
calls it NotImplemented ("optional capability absent and no emulation
defined"). Only its identity is used below. -/
def ErrNotImplemented : GoError :=
  GoError.status StatusNotImplemented "kivik: method not implemented by driver or backend"

/-- Modelled from the spec: the helper `errors.StatusCode` is declared in a
package that is not part of the sources at hand. The specification
distinguishes errors "only by whether they mean not found vs. other
failure": the code of a status error is its status, a nil error has code 0 and
any other error counts as an internal failure. -/
def StatusCode : Option GoError → Nat
  | none => 0
  | some (.status code _) => code
  | some _ => 500

/-! ## A small regular-expression engine

`validDBName` is `regexp.MustCompile` applied to the pattern text held in
`validDBNameSource`. The pattern is kept as a syntax tree and matched with
Brzozowski derivatives. -/

/-- Syntax of the regular expressions needed for the pattern: character
classes given by inclusive ranges, concatenation and repetition. `fail`,
`empty` and `alt` arise as derivatives. -/
inductive Regexp where
  | fail
  | empty
  | cls (ranges : List (Char × Char))
  | cat (a b : Regexp)
  | alt (a b : Regexp)
  | star (a : Regexp)
  deriving Repr

/-- Membership of a character in a bracket expression. -/
def inClass (ranges : List (Char × Char)) (c : Char) : Bool :=
  ranges.any (fun p => decide (p.1.toNat ≤ c.toNat) && decide (c.toNat ≤ p.2.toNat))

/-- Whether the expression matches the empty string. -/
def Regexp.nullable : Regexp → Bool
  | .fail => false
  | .empty => true
  | .cls _ => false
  | .cat a b => a.nullable && b.nullable
  | .alt a b => a.nullable || b.nullable
  | .star _ => true

/-- The derivative of an expression by one character. -/
def Regexp.deriv : Regexp → Char → Regexp
  | .fail, _ => .fail
  | .empty, _ => .fail
  | .cls rs, c => if inClass rs c then .empty else .fail
  | .cat a b, c =>
      if a.nullable then .alt (.cat (a.deriv c) b) (b.deriv c) else .cat (a.deriv c) b
  | .alt a b, c => .alt (a.deriv c) (b.deriv c)
  | .star a, c => .cat (a.deriv c) (.star a)

/-- Match of the whole text against the expression. -/
def Regexp.fullMatch : Regexp → List Char → Bool
  | r, [] => r.nullable
  | r, c :: cs => (r.deriv c).fullMatch cs

/-- A compiled pattern: the body together with its two anchors. Without the
multi-line flag, `^` matches only at the beginning of the text and `$` only at
its end. -/
structure Pattern where
  anchorStart : Bool
  body : Regexp
  anchorEnd : Bool

/-- The method `(*Regexp).MatchString`: whether the text contains a match. An
unanchored side may skip any prefix (suffix) of the text. -/
def Pattern.MatchString (p : Pattern) (s : String) : Bool :=
  let anyChar : Regexp := .star (.cls [(Char.ofNat 0, Char.ofNat 0x10FFFF)])
  let r₁ := if p.anchorStart then p.body else .cat anyChar p.body
  let r₂ := if p.anchorEnd then r₁ else .cat r₁ anyChar
  r₂.fullMatch s.data

/-- The first bracket expression of the pattern, `[a-z]`. -/
def dbNameHead : List (Char × Char) := [('a', 'z')]

/-- The second bracket expression of the pattern: the ranges `a-z` and `0-9`
followed by the seven literal characters underscore, dollar, the two
parentheses, plus, slash and (last, hence literal) hyphen. -/
def dbNameTail : List (Char × Char) :=
  [('a', 'z'), ('0', '9'), ('_', '_'), ('$', '$'), ('(', '('), (')', ')'),
   ('+', '+'), ('/', '/'), ('-', '-')]

/-- The text of the pattern as it stands in the source. -/
def validDBNameSource : String := "^[a-z][a-z0-9_$()+/-]*$"

/-- The package variable `validDBName`: the pattern of `validDBNameSource`
compiled, that is, both anchors around the first bracket expression followed
by any number of repetitions of the second. -/
def validDBName : Pattern :=
  { anchorStart := true
    body := .cat (.cls dbNameHead) (.star (.cls dbNameTail))
    anchorEnd := true }

/-! ## The backend driver and the client facade -/

/-- One invocation of a backend method by the facade. -/
inductive DriverCall (α : Type) where
  | CreateDB (dbName : String)
  | DestroyDB (dbName : String)
  | UUIDs (count : Int)
  | Membership
  | Log (buf : List Nat) (offset : Int)
  | Authenticate (a : α)
  deriving DecidableEq, Repr

/-- The interface `driver.Client` as the facade uses it, over a backend state
`σ`. The mandatory methods are fields; each optional interface (`UUIDer`,
`Cluster`, `Logger`, `Authenticator`) is an optional field, present exactly
when the concrete backend implements it, which is what the type assertion
`c.driverClient.(driver.X)` tests. `α` is the type of authenticators. -/
structure DriverClient (σ α : Type) where
  CreateDB : String → σ → Option GoError × σ
  DestroyDB : String → σ → Option GoError × σ
  UUIDer : Option (Int → σ → (Option (List String) × Option GoError) × σ)
  Cluster : Option (σ → (Option (List String) × Option (List String) × Option GoError) × σ)
  Logger : Option (List Nat → Int → σ → (List Nat × Int × Option GoError) × σ)
  Authenticator : Option (α → σ → Option GoError × σ)

/-- The struct `Client`. -/
structure Client (σ α : Type) where
  dsn : String
  driverClient : DriverClient σ α

/-- The outcome of a facade call: the values returned, the backend state
afterwards, and the backend methods invoked, in order. -/
structure Run (σ α ρ : Type) where
  result : ρ
  state : σ
  calls : List (DriverCall α)

variable {σ α : Type}

/-- The method `Client.CreateDB`. -/
def Client.CreateDB (c : Client σ α) (dbName : String) (st : σ) : Run σ α (Option GoError) :=
  if !validDBName.MatchString dbName then
    { result := some (.status StatusBadRequest "invalid database name"), state := st, calls := [] }
  else
    let r := c.driverClient.CreateDB dbName st
    { result := r.1, state := r.2, calls := [.CreateDB dbName] }

/-- The method `Client.DestroyDB`. -/
def Client.DestroyDB (c : Client σ α) (dbName : String) (st : σ) : Run σ α (Option GoError) :=
  let r := c.driverClient.DestroyDB dbName st
  { result := r.1, state := r.2, calls := [.DestroyDB dbName] }

/-- The method `Client.UUIDs`. -/
def Client.UUIDs (c : Client σ α) (count : Int) (st : σ) :
    Run σ α (Option (List String) × Option GoError) :=
  if count < 0 then
    { result := (none, some (.status StatusBadRequest "count must be a positive integer")),
      state := st, calls := [] }
  else
    match c.driverClient.UUIDer with
    | some uuider =>
        let r := uuider count st
        { result := r.1, state := r.2, calls := [.UUIDs count] }
    | none => { result := (none, some ErrNotImplemented), state := st, calls := [] }

/-- The method `Client.Membership`. -/
def Client.Membership (c : Client σ α) (st : σ) :
    Run σ α (Option (List String) × Option (List String) × Option GoError) :=
  match c.driverClient.Cluster with
  | some cluster =>
      let r := cluster st
      { result := r.1, state := r.2, calls := [.Membership] }
  | none => { result := (none, none, some ErrNotImplemented), state := st, calls := [] }

/-- The method `Client.Log`. The result carries the contents of `buf` after
the call next to the two returned values. -/
def Client.Log (c : Client σ α) (buf : List Nat) (offset : Int) (st : σ) :
    Run σ α (List Nat × Int × Option GoError) :=
  match c.driverClient.Logger with
  | some logger =>
      let r := logger buf offset st
      { result := r.1, state := r.2, calls := [.Log buf offset] }
  | none => { result := (buf, 0, some ErrNotImplemented), state := st, calls := [] }

/-- The method `Client.Authenticate`. -/
def Client.Authenticate (c : Client σ α) (a : α) (st : σ) : Run σ α (Option GoError) :=
  match c.driverClient.Authenticator with
  | some auth =>
      let r := auth a st
      { result := r.1, state := r.2, calls := [.Authenticate a] }
  | none => { result := some ErrNotImplemented, state := st, calls := [] }

/-! ## The driver registry and `New` -/

/-- The function `strconv.IsPrint`. Latin-1 is decided directly; above it the
answer comes from the Unicode tables of the Go release, taken as `table`. -/
def IsPrint (table : Char → Bool) (r : Char) : Bool :=
  if r.toNat ≤ 0xFF then
    if 0x20 ≤ r.toNat && r.toNat < 0x7F then true
    else if 0xA1 ≤ r.toNat then r.toNat != 0xAD
    else false
  else table r

/-- One lower-case hexadecimal digit. -/
def lowerhex (n : Nat) : Char :=
  "0123456789abcdef".data.getD (n % 16) '0'

/-- The lowest `width` hexadecimal digits of `n`, most significant first. -/
def hexDigits : Nat → Nat → List Char
  | 0, _ => []
  | width + 1, n => hexDigits width (n / 16) ++ [lowerhex n]

/-- The function `appendEscapedRune` of `strconv` for the double quote, as
`%q` uses it: the quote and the backslash get a backslash, printable runes
stand for themselves, and the rest is written as an escape sequence. -/
def escapedRune (table : Char → Bool) (r : Char) : List Char :=
  let bs := Char.ofNat 92
  if r = Char.ofNat 34 ∨ r = bs then [bs, r]
  else if IsPrint table r then [r]
  else if r.toNat = 7 then [bs, 'a']
  else if r.toNat = 8 then [bs, 'b']
  else if r.toNat = 12 then [bs, 'f']
  else if r.toNat = 10 then [bs, 'n']
  else if r.toNat = 13 then [bs, 'r']
  else if r.toNat = 9 then [bs, 't']
  else if r.toNat = 11 then [bs, 'v']
  else if r.toNat < 0x20 ∨ r.toNat = 0x7F then bs :: 'x' :: hexDigits 2 r.toNat
  else if r.toNat < 0x10000 then bs :: 'u' :: hexDigits 4 r.toNat
  else bs :: 'U' :: hexDigits 8 r.toNat

/-- The function `strconv.Quote`. -/
def Quote (table : Char → Bool) (s : String) : String :=
  ⟨Char.ofNat 34 :: (s.data.flatMap (escapedRune table) ++ [Char.ofNat 34])⟩

/-- The interface `driver.Driver`: a factory of backend clients. By the Go
convention the factory yields either an error or a client. -/
structure Driver (σ α : Type) where
  NewClient : String → Except GoError (DriverClient σ α)

/-- What `New` returns, together with the factory invocations it made (driver
name and data source name). -/
structure NewResult (σ α : Type) where
  client : Option (Client σ α)
  err : Option GoError
  factoryCalls : List (String × String)

/-- The function `New`. `drivers` is the registry, a map from names to
drivers. -/
def New (table : Char → Bool) (drivers : String → Option (Driver σ α))
    (driverName dataSourceName : String) : NewResult σ α :=
  match drivers driverName with
  | none =>
      { client := none
        err := some (.plain
          ("kivik: unknown driver " ++ Quote table driverName ++ " (forgotten import?)"))
        factoryCalls := [] }
  | some driveri =>
      match driveri.NewClient dataSourceName with
      | .error err =>
          { client := none, err := some err, factoryCalls := [(driverName, dataSourceName)] }
      | .ok client =>
          { client := some { dsn := dataSourceName, driverClient := client }
            err := none
            factoryCalls := [(driverName, dataSourceName)] }

/-! ## Cookie authentication (`auth/cookie/cookie.go`) -/

/-- The struct `authdb.UserContext`. -/
structure UserContext where
  Name : String
  Roles : List String
  Salt : String
  deriving DecidableEq, Repr

/-- The struct `http.Cookie`, with the fields the handler sets. -/
structure Cookie where
  Name : String
  Value : String
  Path : String
  MaxAge : Int
  HttpOnly : Bool
  deriving DecidableEq, Repr

/-- An incoming `http.Request`: method, `URL.Path`, the cookies it carries
(name and value, in header order), and the raw query, content type and body
from which the parameters are bound. -/
structure Request where
  Method : String
  Path : String
  Cookies : List (String × String)
  RawQuery : String
  ContentType : String
  Body : String
  deriving DecidableEq, Repr

/-- A value of the map that the handlers encode as the response body. -/
inductive JSONValue where
  | bool (b : Bool)
  | str (s : String)
  | strs (l : List String)
  deriving DecidableEq, Repr

/-- The state of an `http.ResponseWriter`: the header lines other than
`Set-Cookie` in order, the cookies added by `http.SetCookie`, the status once
it has been written, and the JSON objects encoded to the body (their members
in key order, as the encoder writes a map). Writes to it always succeed. -/
structure ResponseWriter where
  header : List (String × String)
  cookies : List Cookie
  status : Option Nat
  body : List (List (String × JSONValue))
  deriving DecidableEq, Repr

/-- A response writer to which nothing has been written. -/
def ResponseWriter.fresh : ResponseWriter :=
  { header := [], cookies := [], status := none, body := [] }

/-- The method `Header().Set`: replaces the values of the key. -/
def ResponseWriter.headerSet (w : ResponseWriter) (k v : String) : ResponseWriter :=
  { w with header := w.header.filter (fun p => p.1 != k) ++ [(k, v)] }

/-- The method `Header().Add`: appends a value to the key. -/
def ResponseWriter.headerAdd (w : ResponseWriter) (k v : String) : ResponseWriter :=
  { w with header := w.header ++ [(k, v)] }

/-- The function `http.SetCookie`. -/
def ResponseWriter.SetCookie (w : ResponseWriter) (c : Cookie) : ResponseWriter :=
  { w with cookies := w.cookies ++ [c] }

/-- The method `WriteHeader`: the first status written is the one sent. -/
def ResponseWriter.WriteHeader (w : ResponseWriter) (code : Nat) : ResponseWriter :=
  { w with status := some (w.status.getD code) }

/-- The call `json.NewEncoder(w).Encode(obj)`: the first write sends status
200 unless a status was written before. -/
def ResponseWriter.Encode (w : ResponseWriter) (obj : List (String × JSONValue)) :
    ResponseWriter :=
  { w with status := some (w.status.getD 200), body := w.body ++ [obj] }

/-- Modelled from the spec: the constant `kivik.SessionCookieName`, declared
outside the sources at hand; the specification calls it "a fixed well-known
token". The name is the one CouchDB uses. -/
def SessionCookieName : String := "AuthSession"

/-- Modelled from the spec: the constant `kivik.TypeJSON`, declared outside
the sources at hand; the session endpoints respond with
`Content-Type: application/json`. -/
def TypeJSON : String := "application/json"

/-- Modelled from the spec: the constant `kivik.MethodPost`, declared outside
the sources at hand; the login is a `POST` to the session resource. -/
def MethodPost : String := "POST"

/-- Modelled from the spec: the constant `kivik.MethodDelete`, declared
outside the sources at hand; the logout is a `DELETE` to the session
resource. -/
def MethodDelete : String := "DELETE"

/-- Modelled from the spec: the constant `serve.DefaultSessionTimeout`,
declared outside the sources at hand; "a fixed constant" of seconds used when
the timeout is not configured. The statements below refer to it by name
only. -/
def DefaultSessionTimeout : Int := 600

/-- The fields bound from a login request: `Name` is a pointer in the source,
nil when the request has no name field. -/
structure AuthData where
  Name : Option String
  Password : String
  deriving DecidableEq, Repr

/-- One invocation of a method of the service or of its user store. -/
inductive ServiceCall where
  | UserCtx (name : String)
  | Validate (name password : String)
  | ValidateCookie (user : Option UserContext) (value : String)
  | ConfigGet (secName key : String)
  | CreateAuthToken (name salt : String) (time : Int)
  deriving DecidableEq, Repr

/-- The collaborators of the handler, which live outside `cookie.go`: the
user store (`UserCtx`, `Validate`), the service (`ValidateCookie`,
`CreateAuthToken`, the configuration lookup), the helpers of package `serve`
(`DecodeCookie`, `BindParams`, `StringQueryParam`), and the library calls
`time.Now().Unix()` and `url.Parse` followed by `String`. Each returns the Go
result tuple. -/
structure Service where
  UserCtx : String → Option UserContext × Option GoError
  Validate : String → String → Option UserContext × Option GoError
  ValidateCookie : Option UserContext → String → Bool × Option GoError
  CreateAuthToken : String → String → Int → String × Option GoError
  ConfigGet : String → String → String × Option GoError
  DecodeCookie : String → String × Int × Option GoError
  BindParams : Request → AuthData × Option GoError
  StringQueryParam : Request → String → String × Bool
  Now : Int
  URLParse : String → String × Option GoError

/-- The method `(*http.Request).Cookie`: the first cookie of that name, or
`ErrNoCookie` (here `none`). -/
def Request.Cookie (r : Request) (name : String) : Option (String × String) :=
  r.Cookies.find? (fun c => c.1 == name)

/-- What a handler leaves behind: the user and error it returns, the response
writer afterwards, the service calls it made in order, and whether it stopped
in a nil-pointer panic. -/
structure Handled where
  user : Option UserContext
  err : Option GoError
  w : ResponseWriter
  calls : List ServiceCall
  panicked : Bool
  deriving DecidableEq, Repr

/-- The function `strings.HasPrefix`. -/
def HasPrefix (s pre : String) : Bool :=
  pre.data.isPrefixOf s.data

/-- The digits of a decimal numeral, or `none` at the first other byte. -/
def parseDigits : List Char → Nat → Option Nat
  | [], acc => some acc
  | c :: cs, acc =>
      if '0'.toNat ≤ c.toNat ∧ c.toNat ≤ '9'.toNat then parseDigits cs (acc * 10 + (c.toNat - 48))
      else none

/-- The function `strconv.Atoi` on a 64-bit platform: an optional sign
followed by at least one decimal digit; a value out of range is clamped and
reported as a range error. -/
def Atoi (s : String) : Int × Option GoError :=
  let syntaxErr : Int × Option GoError := (0, some (.numError "Atoi" s "invalid syntax"))
  let neg := s.data.head? = some '-'
  let digits := if s.data.head? = some '+' ∨ s.data.head? = some '-' then s.data.tail else s.data
  if digits = [] then syntaxErr
  else
    match parseDigits digits 0 with
    | none => syntaxErr
    | some n =>
        if ¬ neg ∧ 2 ^ 63 ≤ n then
          (2 ^ 63 - 1, some (.numError "Atoi" s "value out of range"))
        else if neg ∧ 2 ^ 63 < n then
          (-(2 ^ 63), some (.numError "Atoi" s "value out of range"))
        else (if neg then -(n : Int) else (n : Int), none)

/-- The function `getSessionTimeout`, with the configuration lookup it
makes. -/
def getSessionTimeout (s : Service) : (Int × Option GoError) × List ServiceCall :=
  let r := s.ConfigGet "couch_httpd_auth" "timeout"
  let calls := [ServiceCall.ConfigGet "couch_httpd_auth" "timeout"]
  if StatusCode r.2 = StatusNotFound then ((DefaultSessionTimeout, none), calls)
  else
    match r.2 with
    | some err => ((0, some err), calls)
    | none => (Atoi r.1, calls)

/-- The function `redirectURL`. -/
def redirectURL (s : Service) (r : Request) : String × Option GoError :=
  let q := s.StringQueryParam r "next"
  if !q.2 then ("", none)
  else if !HasPrefix q.1 "/" then
    ("", some (.status StatusBadRequest "redirection url must be relative to server root"))
  else if HasPrefix q.1 "//" then
    ("", some (.status StatusBadRequest "invalid redirection url"))
  else
    match s.URLParse q.1 with
    | (_, some _) => ("", some (.status StatusBadRequest "invalid redirection url"))
    | (parsed, none) => (parsed, none)

/-- The function `postSession`. -/
def postSession (s : Service) (w : ResponseWriter) (r : Request) : Handled :=
  let bound := s.BindParams r
  match bound.2 with
  | some _ =>
      { user := none
        err := some (.status StatusBadRequest "unable to parse request data")
        w := w, calls := [], panicked := false }
  | none =>
  match bound.1.Name with
  | none =>
      { user := none
        err := some (.status StatusBadRequest "request body must contain a username")
        w := w, calls := [], panicked := false }
  | some name =>
  let validated := s.Validate name bound.1.Password
  let calls₁ := [ServiceCall.Validate name bound.1.Password]
  match validated.2 with
  | some err => { user := none, err := some err, w := w, calls := calls₁, panicked := false }
  | none =>
  let timeout := getSessionTimeout s
  let calls₂ := calls₁ ++ timeout.2
  match timeout.1.2 with
  | some err => { user := none, err := some err, w := w, calls := calls₂, panicked := false }
  | none =>
  let next := redirectURL s r
  match next.2 with
  | some err => { user := none, err := some err, w := w, calls := calls₂, panicked := false }
  | none =>
  match validated.1 with
  | none => { user := none, err := none, w := w, calls := calls₂, panicked := true }
  | some user =>
  let token := s.CreateAuthToken name user.Salt s.Now
  let calls₃ := calls₂ ++ [ServiceCall.CreateAuthToken name user.Salt s.Now]
  match token.2 with
  | some err => { user := none, err := some err, w := w, calls := calls₃, panicked := false }
  | none =>
  let w₁ := w.headerSet "Cache-Control" "must-revalidate"
  let w₂ := w₁.SetCookie
    { Name := SessionCookieName, Value := token.1, Path := "/", MaxAge := timeout.1.1,
      HttpOnly := true }
  let w₃ := w₂.headerAdd "Content-Type" TypeJSON
  let w₄ := if next.1 ≠ "" then (w₃.headerAdd "Location" next.1).WriteHeader StatusFound else w₃
  { user := none
    err := none
    w := w₄.Encode
      [("name", .str user.Name), ("ok", .bool true), ("roles", .strs user.Roles)]
    calls := calls₃
    panicked := false }

/-- The function `deleteSession`. -/
def deleteSession (w : ResponseWriter) (_r : Request) : Handled :=
  let w₁ := w.SetCookie
    { Name := SessionCookieName, Value := "", Path := "/", MaxAge := -1, HttpOnly := true }
  let w₂ := w₁.headerAdd "Content-Type" TypeJSON
  let w₃ := w₂.headerSet "Cache-Control" "must-revalidate"
  { user := none, err := none, w := w₃.Encode [("ok", .bool true)], calls := [],
    panicked := false }

/-- The method `Auth.validateCookie`. -/
def validateCookie (s : Service) (w : ResponseWriter) (r : Request) : Handled :=
  match r.Cookie SessionCookieName with
  | none => { user := none, err := none, w := w, calls := [], panicked := false }
  | some cookie =>
  let decoded := s.DecodeCookie cookie.2
  match decoded.2.2 with
  | some _ => { user := none, err := none, w := w, calls := [], panicked := false }
  | none =>
  let looked := s.UserCtx decoded.1
  let calls₁ := [ServiceCall.UserCtx decoded.1]
  match looked.2 with
  | some _ => { user := none, err := none, w := w, calls := calls₁, panicked := false }
  | none =>
  let checked := s.ValidateCookie looked.1 cookie.2
  let calls₂ := calls₁ ++ [ServiceCall.ValidateCookie looked.1 cookie.2]
  if checked.2.isSome || !checked.1 then
    { user := none, err := none, w := w, calls := calls₂, panicked := false }
  else
    { user := looked.1, err := none, w := w, calls := calls₂, panicked := false }

/-- The method `Auth.Authenticate`. -/
def Authenticate (s : Service) (w : ResponseWriter) (r : Request) : Handled :=
  if r.Path = "/_session" ∧ r.Method = MethodPost then
    { postSession s w r with user := none }
  else if r.Path = "/_session" ∧ r.Method = MethodDelete then
    { deleteSession w r with user := none }
  else validateCookie s w r

/-! ## The naming rule in the words of the specification -/

/-- A lowercase letter `a` to `z`. -/
def isLowerLetter (c : Char) : Bool :=
  decide ('a'.toNat ≤ c.toNat) && decide (c.toNat ≤ 'z'.toNat)

/-- A decimal digit. -/
def isDigitChar (c : Char) : Bool :=
  decide ('0'.toNat ≤ c.toNat) && decide (c.toNat ≤ '9'.toNat)

/-- One of the seven punctuation characters a database name may contain. -/
def isNamePunct (c : Char) : Bool :=
  c == '_' || c == '$' || c == '(' || c == ')' || c == '+' || c == '/' || c == '-'

/-- The naming rule as the specification words it: the name is non-empty, its
first character is a lowercase letter, and every following character is a
lowercase letter, a digit or one of the seven punctuation characters. -/
def namingRule (s : String) : Bool :=
  match s.data with
  | [] => false
  | c :: cs => isLowerLetter c && cs.all (fun x => isLowerLetter x || isDigitChar x || isNamePunct x)

/-- The ways in which validation of the session cookie of a request can fail,
as the specification lists them: no session cookie; a value that does not
decode; a user-store lookup that fails; a token validation that reports an
error; a token validation that answers false. -/
def CookieFailure (s : Service) (r : Request) : Prop :=
  r.Cookie SessionCookieName = none ∨
  ∃ c, r.Cookie SessionCookieName = some c ∧
    ((s.DecodeCookie c.2).2.2 ≠ none ∨
     (s.UserCtx (s.DecodeCookie c.2).1).2 ≠ none ∨
     (s.ValidateCookie (s.UserCtx (s.DecodeCookie c.2).1).1 c.2).2 ≠ none ∨
     (s.ValidateCookie (s.UserCtx (s.DecodeCookie c.2).1).1 c.2).1 = false)

/-- A request that `Authenticate` hands to the login or logout handler. -/
def isSessionCall (r : Request) : Prop :=
  r.Path = "/_session" ∧ (r.Method = MethodPost ∨ r.Method = MethodDelete)

/-- A backend for the examples below: it has no state, accepts every create
and destroy request, and implements the UUID generator only (every identifier
it hands out is `u`). -/
def exampleBackend : DriverClient Unit Unit :=
  { CreateDB := fun _ st => (none, st)
    DestroyDB := fun _ st => (none, st)
    UUIDer := some (fun count st => ((some (List.replicate count.toNat "u"), none), st))
    Cluster := none
    Logger := none
    Authenticator := none }

/-- A client over `exampleBackend`. -/
def exampleClient : Client Unit Unit :=
  { dsn := "example", driverClient := exampleBackend }

/-- A backend for the examples below that implements the mandatory methods
only. -/
def minimalBackend : DriverClient Unit Unit :=
  { exampleBackend with UUIDer := none }

/-- A driver whose factory always fails. -/
def failingDriver : Driver Unit Unit :=
  { NewClient := fun _ => .error (.status 500 "connection refused") }

/-- A user record for the examples below. -/
def bob : UserContext :=
  { Name := "bob", Roles := ["reader"], Salt := "0123abcd" }

/-- A service for the examples below: its store knows the user `bob` with the
password `secret`, its tokens have the form `name:token`, and its
configuration holds no session timeout. -/
def exampleService : Service :=
  { UserCtx := fun n =>
      if n = "bob" then (some bob, none) else (none, some (.status StatusNotFound "no such user"))
    Validate := fun n p =>
      if n = "bob" ∧ p = "secret" then (some bob, none)
      else (none, some (.status 401 "invalid credentials"))
    ValidateCookie := fun u v => (decide (u = some bob ∧ v = "bob:token"), none)
    CreateAuthToken := fun n _ _ => (n ++ ":token", none)
    ConfigGet := fun _ _ => ("", some (.status StatusNotFound "config key not found"))
    DecodeCookie := fun v =>
      if v = "bob:token" then ("bob", 0, none)
      else if v = "bob:stale" then ("bob", 0, none)
      else if v = "eve:token" then ("eve", 0, none)
      else ("", 0, some (.plain "malformed cookie"))
    BindParams := fun r =>
      if r.Body = "name=bob&password=secret" then
        ({ Name := some "bob", Password := "secret" }, none)
      else if r.Body = "password=secret" then ({ Name := none, Password := "secret" }, none)
      else ({ Name := none, Password := "" }, some (.plain "unparsable body"))
    StringQueryParam := fun r _ => (r.RawQuery, r.RawQuery != "")
    Now := 1500000000
    URLParse := fun u => (u, none) }

/-- A request with the given method, path, cookies and body. -/
def exampleRequest (method path : String) (cookies : List (String × String)) (body : String) :
    Request :=
  { Method := method, Path := path, Cookies := cookies, RawQuery := "",
    ContentType := "application/x-www-form-urlencoded", Body := body }

/-! ## The configured-administrators store (`authdb/confadmin/confadmin.go`) -/

/-- Modelled from the spec: the constant `kivik.StatusUnauthorized`, declared
outside the sources at hand; the specification's Unauthorized. -/
def StatusUnauthorized : Nat := 401

/-- Modelled from the spec: the sentinel `kivik.ErrUnauthorized`, declared
outside the sources at hand; the specification's Unauthorized ("bad
credentials"). -/
def ErrUnauthorized : GoError := GoError.status StatusUnauthorized "unauthorized"

/-- Modelled from the spec: the sentinel `kivik.ErrNotFound`, declared outside
the sources at hand; the specification's NotFound ("document, database, index,
or user absent"). -/
def ErrNotFound : GoError := GoError.status StatusNotFound "not found"

/-- Modelled from the spec: the constant `authdb.SchemePBKDF2`, declared
outside the sources at hand; the specification writes the stored hash as
`-pbkdf2-<derivedKeyHex>,<saltHex>,<iterationCount>`. -/
def SchemePBKDF2 : String := "pbkdf2"

/-- The constant `hashPrefix`. -/
def hashPrefix : String := "-" ++ SchemePBKDF2 ++ "-"

/-- The function `strings.TrimPrefix`. -/
def TrimPrefix (s pre : String) : String :=
  if HasPrefix s pre then ⟨s.data.drop pre.data.length⟩ else s

/-- Splitting of a text at every occurrence of a one-character separator: the
pieces between the separators, in order; a text without the separator is its
own single piece. -/
def splitChars (sep : Char) : List Char → List (List Char)
  | [] => [[]]
  | c :: cs =>
      if c = sep then [] :: splitChars sep cs
      else
        match splitChars sep cs with
        | [] => [[c]]
        | p :: ps => (c :: p) :: ps

/-- The function `strings.Split` for a separator of one character. -/
def Split (s : String) (sep : Char) : List String :=
  (splitChars sep s.data).map String.mk

/-- One invocation made by the store: a configuration lookup, or a call of
`authdb.ValidatePBKDF2`. -/
inductive ConfCall where
  | GetContext (secName key : String)
  | ValidatePBKDF2 (password salt derivedKey : String) (iterations : Int)
  deriving DecidableEq, Repr

/-- The struct `conf` with what it relies on from outside the file: the lookup
`GetContext` of the embedded `*config.Config`, and the function
`authdb.ValidatePBKDF2` (password, salt, derived key, iterations). -/
structure Conf where
  GetContext : String → String → String × Option GoError
  ValidatePBKDF2 : String → String → String → Int → Bool

/-- The four values `getKeySaltIter` returns. -/
structure KeySaltIter where
  key : String
  salt : String
  iterations : Int
  err : Option GoError
  deriving DecidableEq, Repr

/-- The method `conf.getKeySaltIter`. -/
def Conf.getKeySaltIter (c : Conf) (username : String) : KeySaltIter :=
  let looked := c.GetContext "admins" username
  match looked.2 with
  | some err => { key := "", salt := "", iterations := 0, err := some err }
  | none =>
  if !HasPrefix looked.1 hashPrefix then
    { key := "", salt := "", iterations := 0, err := some (.plain "unrecognized password scheme") }
  else
    match Split (TrimPrefix looked.1 hashPrefix) (Char.ofNat 44) with
    | [key, salt, iter] =>
        match (Atoi iter).2 with
        | some _ =>
            { key := "", salt := "", iterations := 0
              err := some (.plain "unrecognized has format") }
        | none => { key := key, salt := salt, iterations := (Atoi iter).1, err := none }
    | _ =>
        { key := "", salt := "", iterations := 0, err := some (.plain "unrecognized hash format") }

/-- What a method of the store returns, with the invocations it made. -/
structure ConfResult where
  user : Option UserContext
  err : Option GoError
  calls : List ConfCall
  deriving DecidableEq, Repr

/-- The method `conf.Validate`. -/
def Conf.Validate (c : Conf) (username password : String) : ConfResult :=
  let ksi := c.getKeySaltIter username
  let calls₁ := [ConfCall.GetContext "admins" username]
  match ksi.err with
  | some err =>
      if StatusCode (some err) = StatusNotFound then
        { user := none, err := some ErrUnauthorized, calls := calls₁ }
      else
        { user := none, err := some (.wrap err "unrecognized password hash"), calls := calls₁ }
  | none =>
      let calls₂ := calls₁ ++ [ConfCall.ValidatePBKDF2 password ksi.salt ksi.key ksi.iterations]
      if !c.ValidatePBKDF2 password ksi.salt ksi.key ksi.iterations then
        { user := none, err := some (.status StatusUnauthorized "unauthorized"), calls := calls₂ }
      else
        { user := some { Name := username, Roles := ["_admin"], Salt := ksi.salt }
          err := none, calls := calls₂ }

/-- The method `conf.UserCtx`. -/
def Conf.UserCtx (c : Conf) (username : String) : ConfResult :=
  let ksi := c.getKeySaltIter username
  let calls₁ := [ConfCall.GetContext "admins" username]
  match ksi.err with
  | some err =>
      if StatusCode (some err) = StatusNotFound then
        { user := none, err := some ErrNotFound, calls := calls₁ }
      else
        { user := none, err := some (.wrap err "unrecognized password hash"), calls := calls₁ }
  | none =>
      { user := some { Name := username, Roles := ["_admin"], Salt := ksi.salt }
        err := none, calls := calls₁ }

/-! ## Decimal numerals in the words of the specification -/

/-- The character of a decimal digit. -/
def digitChar (d : Nat) : Char := Char.ofNat (48 + d)

/-- The decimal digits of a natural number, most significant first; `fuel`
bounds the number of digits. -/
def natDecimalFuel : Nat → Nat → List Char
  | 0, _ => []
  | fuel + 1, n =>
      if n < 10 then [digitChar n] else natDecimalFuel fuel (n / 10) ++ [digitChar (n % 10)]

/-- The decimal numeral of a natural number. -/
def natDecimal (n : Nat) : List Char := natDecimalFuel (n + 1) n

/-- The function `strconv.Itoa`: the decimal numeral of an integer, which the
claims write `decimal(N)`. -/
def Itoa (n : Int) : String :=
  ⟨if n < 0 then '-' :: natDecimal n.natAbs else natDecimal n.natAbs⟩

/-- Whether a character is one of `0` to `9`. -/
def isDigit (c : Char) : Bool :=
  decide ('0'.toNat ≤ c.toNat ∧ c.toNat ≤ '9'.toNat)

/-- A decimal integer as a text: an optional sign followed by one or more
decimal digits. -/
def isDecimalInteger (s : String) : Bool :=
  let digits := if s.data.head? = some '+' ∨ s.data.head? = some '-' then s.data.tail else s.data
  !digits.isEmpty && digits.all isDigit

/-- The stored value of the documented encoding: the prefix, the derived key,
a comma, the salt, a comma and the decimal numeral of the iteration count. -/
def storedHash (derivedKey salt : String) (iterations : Int) : String :=
  "-pbkdf2-" ++ derivedKey ++ "," ++ salt ++ "," ++ Itoa iterations

/-- A store for the examples below: its configuration holds the administrator
`admin` with derived key `abcd`, salt `0f0f` and 10 iterations, and an entry
`legacy` in another scheme; the key derivation accepts the password `secret`
only. -/
def exampleConf : Conf :=
  { GetContext := fun sec key =>
      if sec = "admins" ∧ key = "admin" then ("-pbkdf2-abcd,0f0f,10", none)
      else if sec = "admins" ∧ key = "legacy" then ("-hashed-abcd,0f0f", none)
      else ("", some (.status StatusNotFound "config key not found"))
    ValidatePBKDF2 := fun password salt key iterations =>
      decide (password = "secret" ∧ salt = "0f0f" ∧ key = "abcd" ∧ iterations = 10) }

/-- A service like `exampleService` whose configured session timeout is not a
number. -/
def misconfiguredService : Service :=
  { exampleService with ConfigGet := fun _ _ => ("soon", none) }

/-- A service like `exampleService` whose configured session timeout is 3600
seconds. -/
def hourService : Service :=
  { exampleService with ConfigGet := fun _ _ => ("3600", none) }

/-- A login request of `bob` with the given redirect target as its query. -/
def loginRequest (next : String) : Request :=
  { exampleRequest "POST" "/_session" [] "name=bob&password=secret" with RawQuery := next }

/-- A service like `exampleService` that binds the name `bob` and takes the
whole body as the password. -/
def guessService : Service :=
  { exampleService with
    BindParams := fun r => ({ Name := some "bob", Password := r.Body }, none) }

/-! ## The PouchDB client (`driver/pouchdb/pouchdb.go`) -/

/-- The type `Options`, a map from option names to values. -/
abbrev Options := List (String × JSONValue)

/-- The part of a `url.URL` the client touches: its path, and everything else
(scheme, host, query) kept as it is. -/
structure URL where
  Path : String
  Rest : String
  deriving DecidableEq, Repr

/-- One invocation of the PouchDB bindings: the constructor `New` with a name
and options, and the methods `Info` and `Destroy` of the handle of that
name. -/
inductive PouchCall where
  | New (name : String) (opts : Options)
  | Info (name : String)
  | Destroy (name : String)
  deriving DecidableEq, Repr

/-- What the client relies on from outside the file, over a state `σ` of the
JavaScript side: the bindings of PouchDB (`New` builds a handle, which for a
local name creates the database; `Info` and `Destroy` act on a handle given
by its name and options), the library function `mergo.MergeWithOverwrite`
(destination, source; the destination afterwards and the error) and the
method `String` of `url.URL`. -/
structure PouchEnv (σ : Type) where
  New : String → Options → σ → σ
  Info : String → Options → σ → Option GoError × σ
  Destroy : String → Options → σ → Option GoError × σ
  MergeWithOverwrite : Options → Options → Options × Option GoError
  URLString : URL → String

/-- The struct `client`: the address of a remote server, or nil for local
databases, and the default options by name, in the order in which the map is
traversed. -/
structure PouchClient where
  dsn : Option URL
  opts : List (String × Options)

/-- The loop of `client.options` over the default options: the merged options
so far, or the error of the first merge that fails. -/
def mergeDefaults {σ : Type} (env : PouchEnv σ) :
    List (String × Options) → Options → Options × Option GoError
  | [], o => (o, none)
  | d :: ds, o =>
      match env.MergeWithOverwrite o d.2 with
      | (_, some err) => ([], some err)
      | (o', none) => mergeDefaults env ds o'

/-- The method `client.options`. -/
def PouchClient.options {σ : Type} (env : PouchEnv σ) (c : PouchClient) (opts : Options) :
    Options × Option GoError :=
  match mergeDefaults env c.opts [] with
  | (_, some err) => ([], some err)
  | (o, none) => env.MergeWithOverwrite o opts

/-- The method `client.isRemote`. -/
def PouchClient.isRemote (c : PouchClient) : Bool := c.dsn.isSome

/-- The function `strings.TrimLeft` for a cutset of one character. -/
def TrimLeft (s : String) (cut : Char) : String :=
  ⟨s.data.dropWhile (fun ch => ch == cut)⟩

/-- The method `client.dbURL`. -/
def PouchClient.dbURL {σ : Type} (env : PouchEnv σ) (c : PouchClient) (db : String) : String :=
  match c.dsn with
  | none => db
  | some u => env.URLString { u with Path := u.Path ++ TrimLeft db '/' }

/-- The outcome of a method of the client: the values returned, the state of
the JavaScript side afterwards, and the invocations of the bindings, in
order. -/
structure PouchRun (σ ρ : Type) where
  result : ρ
  state : σ
  calls : List PouchCall

/-- The constant `http.StatusPreconditionFailed`. -/
def StatusPreconditionFailed : Nat := 412

/-- The method `client.DBExistsContext`. -/
def PouchClient.DBExistsContext {σ : Type} (env : PouchEnv σ) (c : PouchClient)
    (dbName : String) (st : σ) : PouchRun σ (Bool × Option GoError) :=
  match c.options env [("skip_setup", .bool true)] with
  | (_, some err) => { result := (false, some err), state := st, calls := [] }
  | (opts, none) =>
      let st₁ := env.New (c.dbURL env dbName) opts st
      let info := env.Info (c.dbURL env dbName) opts st₁
      let calls := [PouchCall.New (c.dbURL env dbName) opts, PouchCall.Info (c.dbURL env dbName)]
      match info.1 with
      | none => { result := (true, none), state := info.2, calls := calls }
      | some err =>
          if StatusCode (some err) = StatusNotFound then
            { result := (false, none), state := info.2, calls := calls }
          else { result := (false, some err), state := info.2, calls := calls }

/-- The method `client.CreateDBContext`. -/
def PouchClient.CreateDBContext {σ : Type} (env : PouchEnv σ) (c : PouchClient)
    (dbName : String) (st : σ) : PouchRun σ (Option GoError) :=
  let probe : PouchRun σ (Bool × Option GoError) :=
    if c.isRemote then c.DBExistsContext env dbName st
    else { result := (false, none), state := st, calls := [] }
  if c.isRemote && probe.result.1 then
    { result := some (.status StatusPreconditionFailed "database exists")
      state := probe.state, calls := probe.calls }
  else
    match c.options env [] with
    | (_, some err) => { result := some err, state := probe.state, calls := probe.calls }
    | (opts, none) =>
        let st₁ := env.New (c.dbURL env dbName) opts probe.state
        let info := env.Info (c.dbURL env dbName) opts st₁
        { result := info.1, state := info.2
          calls := probe.calls ++
            [PouchCall.New (c.dbURL env dbName) opts, PouchCall.Info (c.dbURL env dbName)] }

/-- The method `client.DestroyDBContext`. -/
def PouchClient.DestroyDBContext {σ : Type} (env : PouchEnv σ) (c : PouchClient)
    (dbName : String) (st : σ) : PouchRun σ (Option GoError) :=
  let probe := c.DBExistsContext env dbName st
  match probe.result.2 with
  | some err => { result := some err, state := probe.state, calls := probe.calls }
  | none =>
  if !probe.result.1 then
    { result := some (.status StatusNotFound "database does not exist")
      state := probe.state, calls := probe.calls }
  else
    match c.options env [] with
    | (_, some err) => { result := some err, state := probe.state, calls := probe.calls }
    | (opts, none) =>
        let st₁ := env.New (c.dbURL env dbName) opts probe.state
        let destroyed := env.Destroy (c.dbURL env dbName) opts st₁
        { result := destroyed.1, state := destroyed.2
          calls := probe.calls ++
            [PouchCall.New (c.dbURL env dbName) opts, PouchCall.Destroy (c.dbURL env dbName)] }

/-! ## The find-result iterator (`driver/pouchdb/find.go`) -/

/-- The sentinel `io.EOF`. -/
def EOF : GoError := GoError.plain "EOF"

/-- Modelled from the spec: the struct `driver.Row`, declared outside the
sources at hand; "one iterator element: key, value, optional embedded
document, optional per-row error". The document is its JSON text. -/
structure Row where
  ID : String
  Key : String
  Value : String
  Doc : String
  Error : Option GoError
  deriving DecidableEq, Repr

/-- The struct `findRows`: the JavaScript object of a find result, of which
the iterator uses the property `docs` only, an array of documents (of type
`δ`) or undefined. -/
structure findRows (δ : Type) where
  docs : Option (List δ)

/-- The method `findRows.Close`: deletes the property `docs`. -/
def findRows.Close {δ : Type} (_r : findRows δ) : Option GoError × findRows δ :=
  (none, { docs := none })

/-- The method `findRows.Next`; `stringify` is `JSON.stringify`. The array
method `shift` takes the first document off the array. -/
def findRows.Next {δ : Type} (stringify : δ → String) (r : findRows δ) (row : Row) :
    Option GoError × findRows δ × Row :=
  match r.docs with
  | none => (some EOF, r, row)
  | some [] => (some EOF, r, row)
  | some (next :: rest) => (none, { docs := some rest }, { row with Doc := stringify next })

/-- A call made on an iterator. -/
inductive RowsOp where
  | next
  | close
  deriving DecidableEq, Repr

/-- A sequence of calls on an iterator, all with the same row: the errors
returned, in order, and the iterator and the row afterwards. -/
def findRows.run {δ : Type} (stringify : δ → String) :
    List RowsOp → findRows δ → Row → List (Option GoError) × findRows δ × Row
  | [], r, row => ([], r, row)
  | .next :: ops, r, row =>
      let n := r.Next stringify row
      let rest := findRows.run stringify ops n.2.1 n.2.2
      (n.1 :: rest.1, rest.2)
  | .close :: ops, r, row =>
      let c := r.Close
      let rest := findRows.run stringify ops c.2 row
      (c.1 :: rest.1, rest.2)

/-- Successive calls of `Next`, one for each of the rows supplied: for each
call the error returned and the row afterwards, and the iterator at the
end. -/
def findRows.drain {δ : Type} (stringify : δ → String) :
    List Row → findRows δ → List (Option GoError × Row) × findRows δ
  | [], r => ([], r)
  | row :: rows, r =>
      let n := r.Next stringify row
      let rest := findRows.drain stringify rows n.2.1
      ((n.1, n.2.2) :: rest.1, rest.2)

/-! ## Attachments (`attachments.go`) -/

/-- A stream that is read to its end in one sweep: the bytes it still
delivers and the error that ends it (`none` for a regular end of file). -/
structure Stream where
  pending : List Nat
  failure : Option GoError
  deriving DecidableEq, Repr

/-- What `io.Copy` makes of a stream: it takes the pending bytes; the error
is that of the stream, a regular end of file being no error. The stream is
left without pending bytes. -/
def Stream.copyAll (s : Stream) : (List Nat × Option GoError) × Stream :=
  ((s.pending, s.failure), { s with pending := [] })

/-- The body of an attachment, an `io.ReadCloser`: either a `*bufCloser`, given
by the unread bytes of its buffer, or any other stream. -/
inductive Body where
  | bufCloser (unread : List Nat)
  | stream (s : Stream)
  deriving DecidableEq, Repr

/-- The struct `Attachment`. -/
structure Attachment where
  ReadCloser : Body
  Filename : String
  ContentType : String
  MD5 : List Nat
  deriving DecidableEq, Repr

/-- What a call of `Bytes` leaves behind: the bytes and the error returned (a
nil slice is the empty list), the attachment afterwards, and the stream the
call read, as the read left it, if it read one. -/
structure BytesResult where
  bytes : List Nat
  err : Option GoError
  att : Attachment
  streamRead : Option Stream
  deriving DecidableEq, Repr

/-- The method `Attachment.Bytes`. -/
def Attachment.Bytes (a : Attachment) : BytesResult :=
  match a.ReadCloser with
  | .bufCloser unread => { bytes := unread, err := none, att := a, streamRead := none }
  | .stream s =>
      let copied := s.copyAll
      match copied.1.2 with
      | some err =>
          { bytes := [], err := some err, att := { a with ReadCloser := .stream copied.2 }
            streamRead := some copied.2 }
      | none =>
          { bytes := copied.1.1, err := none
            att := { a with ReadCloser := .bufCloser copied.1.1 }
            streamRead := some copied.2 }

/-! ## The revision lookup of the database facade -/

/-- The part of `driver.DB` the lookup uses: the mandatory `Get`, which yields
the members of the document or an error, and the optional interface
`Rever`. -/
structure DriverDB where
  Get : String → List (String × JSONValue) × Option GoError
  Rever : Option (String → String × Option GoError)

/-- The member `_rev` of a document as decoded into a string field: empty when
the member is missing or is not a string. -/
def revField (doc : List (String × JSONValue)) : String :=
  match doc.lookup "_rev" with
  | some (.str rev) => rev
  | _ => ""

/-- Modelled from the spec: the method `DB.Rev` of the facade, whose file is
not among the sources at hand (its test `testRev` and the interface
`driver.Rever` are). The specification: "Cheap current-revision lookup" falls
back on "full document fetch, read revision field from result" when the
backend does not implement it, and is delegated otherwise. -/
def DBRev (db : DriverDB) (docID : String) : String × Option GoError :=
  match db.Rever with
  | some rever => rever docID
  | none =>
      match db.Get docID with
      | (_, some err) => ("", some err)
      | (doc, none) => (revField doc, none)

/-! ## The in-memory configuration (`serve/config/memconf/memconf.go`) -/

/-- The type `Config`, a map from section names to maps from keys to values. A
Go map is taken as the finite function it stands for; every section present
holds a map (`New` and the methods below produce no nil map). -/
abbrev MemConfig := String → Option (String → Option String)

/-- The function `memconf.New`: the empty configuration. -/
def MemConfig.New : MemConfig := fun _ => none

/-- A map with one key set to a value (`m[k] = v`) or deleted. -/
def mapUpdate {β : Type} (m : String → Option β) (k : String) (v : Option β) :
    String → Option β :=
  fun x => if x = k then v else m x

/-- The method `Config.GetAllContext`. -/
def MemConfig.GetAllContext (c : MemConfig) : MemConfig × Option GoError :=
  (c, none)

/-- The method `Config.SetContext`: the error returned and the configuration
afterwards. A section that is absent is made first, as an empty map. -/
def MemConfig.SetContext (c : MemConfig) (secName key value : String) :
    Option GoError × MemConfig :=
  let sec : String → Option String :=
    match c secName with
    | none => fun _ => none
    | some sec => sec
  (none, mapUpdate c secName (some (mapUpdate sec key (some value))))

/-- The method `Config.DeleteContext`: the error returned and the configuration
afterwards. -/
def MemConfig.DeleteContext (c : MemConfig) (secName key : String) :
    Option GoError × MemConfig :=
  match c secName with
  | none => (some (.status StatusNotFound "configuration section not found"), c)
  | some sec =>
      match sec key with
      | none => (some (.status StatusNotFound "configuration key not found"), c)
      | some _ => (none, mapUpdate c secName (some (mapUpdate sec key none)))

/-- What each call returns on an iterator that has been closed: `Next` the
end-of-stream sentinel, `Close` no error. -/
def closedAnswer : RowsOp → Option GoError
  | .next => some EOF
  | .close => none

/-- The value a configuration holds for a key of a section, if any. -/
def MemConfig.entry (c : MemConfig) (secName key : String) : Option String :=
  (c secName).bind (fun sec => sec key)

/-- A configuration for the examples below: the section `httpd` with the two
keys `port` and `bind`. -/
def exampleMemConfig : MemConfig :=
  ((MemConfig.New.SetContext "httpd" "port" "5984").2.SetContext "httpd" "bind" "0.0.0.0").2

/-- The bindings for the examples below: the state of the JavaScript side is
the list of the databases that exist; a handle built without `skip_setup`
creates its database; `Info` fails with status 404 on a database that does
not exist; merging appends the source to the destination. -/
def examplePouch : PouchEnv (List String) :=
  { New := fun name opts st =>
      if opts.lookup "skip_setup" = some (.bool true) ∨ name ∈ st then st else name :: st
    Info := fun name _ st =>
      if name ∈ st then (none, st) else (some (.status StatusNotFound "missing"), st)
    Destroy := fun name _ st => (none, st.filter (fun n => n != name))
    MergeWithOverwrite := fun dst src => (dst ++ src, none)
    URLString := fun u => u.Rest ++ u.Path }

/-- A remote client for the examples below. -/
def remoteClient : PouchClient :=
  { dsn := some { Path := "/", Rest := "http://example.com" }, opts := [] }

/-- Bindings like `examplePouch` whose `Info` fails with an internal error. -/
def brokenPouch : PouchEnv (List String) :=
  { examplePouch with Info := fun _ _ st => (some (.status 500 "connection lost"), st) }

/-- A row for the examples below. -/
def blankRow : Row :=
  { ID := "", Key := "", Value := "", Doc := "", Error := none }

/-- An attachment for the examples below, over a stream of three bytes. -/
def exampleAttachment : Attachment :=
  { ReadCloser := .stream { pending := [1, 2, 3], failure := none }
    Filename := "a.bin", ContentType := "application/octet-stream", MD5 := [] }

/-- A backend database for the examples below: it holds the document `bob` at
revision `1-abc` and implements the mandatory contract only. -/
def exampleDB : DriverDB :=
  { Get := fun docID =>
      if docID = "bob" then ([("_id", .str "bob"), ("_rev", .str "1-abc")], none)
      else ([], some (.status StatusNotFound "missing"))
    Rever := none }

/-- A service like `hourService` whose configuration lookup fails with an
internal error. -/
def brokenConfigService : Service :=
  { exampleService with ConfigGet := fun _ _ => ("", some (.status 500 "config unavailable")) }

/-! ## Matching: the pattern against the rule -/

theorem fail_fullMatch (x : List Char) : Regexp.fail.fullMatch x = false := by
  induction x with
  | nil => rfl
  | cons c cs ih => simpa [Regexp.fullMatch, Regexp.deriv] using ih

theorem alt_fullMatch (a b : Regexp) (x : List Char) :
    (Regexp.alt a b).fullMatch x = (a.fullMatch x || b.fullMatch x) := by
  induction x generalizing a b with
  | nil => rfl
  | cons c cs ih => simp [Regexp.fullMatch, Regexp.deriv, ih]

theorem fail_cat_fullMatch (b : Regexp) (x : List Char) :
    (Regexp.cat .fail b).fullMatch x = false := by
  induction x with
  | nil => rfl
  | cons c cs ih => simpa [Regexp.fullMatch, Regexp.deriv, Regexp.nullable] using ih

theorem empty_cat_fullMatch (b : Regexp) (x : List Char) :
    (Regexp.cat .empty b).fullMatch x = b.fullMatch x := by
  cases x with
  | nil => simp [Regexp.fullMatch, Regexp.nullable]
  | cons c cs =>
    simp [Regexp.fullMatch, Regexp.deriv, Regexp.nullable, alt_fullMatch, fail_cat_fullMatch]

/-- A concatenation that begins with a bracket expression consumes one
character of the class and leaves the rest to the second factor. -/
theorem cls_cat_fullMatch (rs : List (Char × Char)) (b : Regexp) (c : Char) (cs : List Char) :
    (Regexp.cat (.cls rs) b).fullMatch (c :: cs) = (inClass rs c && b.fullMatch cs) := by
  by_cases h : inClass rs c = true
  · simp [Regexp.fullMatch, Regexp.deriv, Regexp.nullable, h, empty_cat_fullMatch]
  · simp [Regexp.fullMatch, Regexp.deriv, Regexp.nullable, h, fail_cat_fullMatch]

/-- A repeated bracket expression matches exactly the texts all of whose
characters are in the class. -/
theorem star_cls_fullMatch (rs : List (Char × Char)) (x : List Char) :
    (Regexp.star (.cls rs)).fullMatch x = x.all (inClass rs) := by
  induction x with
  | nil => rfl
  | cons c cs ih =>
    by_cases h : inClass rs c = true
    · simp [Regexp.fullMatch, Regexp.deriv, h, empty_cat_fullMatch, ih]
    · simp [Regexp.fullMatch, Regexp.deriv, h, fail_cat_fullMatch]

theorem char_eq_of_toNat_le (c d : Char) (h₁ : d.toNat ≤ c.toNat) (h₂ : c.toNat ≤ d.toNat) :
    c = d :=
  Char.ext (UInt32.ext (Nat.le_antisymm h₂ h₁))

/-- A range whose two ends coincide holds that one character. -/
theorem single_range (d c : Char) :
    (decide (d.toNat ≤ c.toNat) && decide (c.toNat ≤ d.toNat)) = (c == d) := by
  by_cases h : c = d
  · subst h; simp
  · have hne : ¬ (d.toNat ≤ c.toNat ∧ c.toNat ≤ d.toNat) :=
      fun hh => h (char_eq_of_toNat_le c d hh.1 hh.2)
    have hb : (c == d) = false := by simpa using h
    rw [hb]
    simpa using hne

theorem inClass_head (c : Char) : inClass dbNameHead c = isLowerLetter c := by
  simp [inClass, dbNameHead, isLowerLetter]

theorem inClass_tail (c : Char) :
    inClass dbNameTail c = (isLowerLetter c || isDigitChar c || isNamePunct c) := by
  simp only [inClass, dbNameTail, List.any_cons, List.any_nil, single_range, isLowerLetter,
    isDigitChar, isNamePunct, Bool.or_false, Bool.or_assoc]

theorem all_inClass_tail (cs : List Char) :
    cs.all (inClass dbNameTail) =
      cs.all (fun x => isLowerLetter x || isDigitChar x || isNamePunct x) := by
  induction cs with
  | nil => rfl
  | cons c cs ih => simp only [List.all_cons, ih, inClass_tail]

/-- The compiled pattern and the rule in words decide the same names. -/
theorem matchString_eq_namingRule (s : String) :
    validDBName.MatchString s = namingRule s := by
  unfold Pattern.MatchString namingRule
  cases s.data with
  | nil => rfl
  | cons c cs =>
    simp only [validDBName, if_true]
    rw [cls_cat_fullMatch, star_cls_fullMatch, inClass_head, all_inClass_tail]

theorem namingRule_iff (s : String) :
    namingRule s = true ↔
      ∃ c cs, s.data = c :: cs ∧ isLowerLetter c = true ∧
        ∀ x ∈ cs, isLowerLetter x = true ∨ isDigitChar x = true ∨ isNamePunct x = true := by
  unfold namingRule
  cases s.data with
  | nil => simp
  | cons c cs =>
    simp only [Bool.and_eq_true, List.all_eq_true, Bool.or_eq_true, or_assoc]
    constructor
    · intro h
      exact ⟨c, cs, rfl, h.1, h.2⟩
    · rintro ⟨c', cs', heq, h₁, h₂⟩
      cases heq
      exact ⟨h₁, h₂⟩

/-- C1: a database name that does not match the naming rule makes
`Client.CreateDB` return the BadRequest error (status 400) while the backend
is not called: no call is recorded and the backend state is untouched. -/
theorem createDB_invalid_name_badRequest (c : Client σ α) (dbName : String) (st : σ)
    (h : namingRule dbName = false) :
    (Client.CreateDB c dbName st).result
        = some (GoError.status StatusBadRequest "invalid database name") ∧
      StatusBadRequest = 400 ∧
      (Client.CreateDB c dbName st).calls = [] ∧
      (Client.CreateDB c dbName st).state = st := by
  have hm : validDBName.MatchString dbName = false := by
    rw [matchString_eq_namingRule]; exact h
  simp [Client.CreateDB, hm, StatusBadRequest]

theorem createDB_invalid_name_badRequest_witness :
    namingRule "_users" = false ∧
      (Client.CreateDB exampleClient "_users" ()).result
        = some (GoError.status 400 "invalid database name") ∧
      (Client.CreateDB exampleClient "_users" ()).calls = [] :=
  ⟨by decide,
   (createDB_invalid_name_badRequest exampleClient "_users" () (by decide)).1,
   (createDB_invalid_name_badRequest exampleClient "_users" () (by decide)).2.2.1⟩

/-- C2 (counterexample): the name `_users` does not match the naming rule, yet
`Client.DestroyDB` hands it to the backend and returns the backend's nil
error instead of BadRequest. -/
theorem destroyDB_invalid_name_reaches_backend :
    namingRule "_users" = false ∧
      (Client.DestroyDB exampleClient "_users" ()).result = none ∧
      (Client.DestroyDB exampleClient "_users" ()).calls = [DriverCall.DestroyDB "_users"] := by
  refine ⟨by decide, rfl, rfl⟩

/-- C2 (amended): for every database name, matching the naming rule or not,
`Client.DestroyDB` calls the backend's `DestroyDB` exactly once with that name
and returns the backend's error; it validates nothing. -/
theorem destroyDB_forwards_every_name (c : Client σ α) (dbName : String) (st : σ) :
    Client.DestroyDB c dbName st =
      { result := (c.driverClient.DestroyDB dbName st).1
        state := (c.driverClient.DestroyDB dbName st).2
        calls := [DriverCall.DestroyDB dbName] } :=
  rfl

/-- C3: `validDBName` accepts a string exactly when it is non-empty, begins
with a lowercase letter and continues with lowercase letters, digits and the
seven punctuation characters only; the empty string, a name beginning with a
digit, an underscore or an uppercase letter, and an accepted name followed by
a newline are rejected. -/
theorem validDBName_accepts_iff (s : String) :
    (validDBName.MatchString s = true ↔
      ∃ c cs, s.data = c :: cs ∧ isLowerLetter c = true ∧
        ∀ x ∈ cs, isLowerLetter x = true ∨ isDigitChar x = true ∨ isNamePunct x = true) ∧
    validDBName.MatchString "" = false ∧
    (∀ c cs, s.data = c :: cs →
      (isDigitChar c = true ∨ c = '_' ∨ ('A'.toNat ≤ c.toNat ∧ c.toNat ≤ 'Z'.toNat)) →
      validDBName.MatchString s = false) ∧
    (validDBName.MatchString s = true → validDBName.MatchString (s ++ "\n") = false) := by
  refine ⟨?_, by decide, ?_, ?_⟩
  · rw [matchString_eq_namingRule]; exact namingRule_iff s
  · intro c cs hs hc
    rw [matchString_eq_namingRule]
    unfold namingRule
    rw [hs]
    have : isLowerLetter c = false := by
      rcases hc with hd | hu | hA
      · simp only [isDigitChar, Bool.and_eq_true, decide_eq_true_eq] at hd
        have h9 : '9'.toNat = 57 := by decide
        have ha : 'a'.toNat = 97 := by decide
        simp only [isLowerLetter, Bool.and_eq_false_iff, decide_eq_false_iff_not]
        left; omega
      · subst hu; decide
      · have hZ : 'Z'.toNat = 90 := by decide
        have ha : 'a'.toNat = 97 := by decide
        simp only [isLowerLetter, Bool.and_eq_false_iff, decide_eq_false_iff_not]
        left; omega
    simp [this]
  · intro h
    rw [matchString_eq_namingRule] at h ⊢
    unfold namingRule at h ⊢
    rw [String.data_append]
    cases hd : s.data with
    | nil => rw [hd] at h; simp at h
    | cons c cs =>
      have hnl : (isLowerLetter '\n' || isDigitChar '\n' || isNamePunct '\n') = false := by decide
      show (isLowerLetter c && (cs ++ "\n".data).all _) = false
      have : "\n".data = ['\n'] := rfl
      rw [this, List.all_append]
      simp [hnl]

theorem validDBName_accepts_iff_witness :
    validDBName.MatchString "db_1" = true ∧ validDBName.MatchString ("db_1" ++ "\n") = false ∧
      validDBName.MatchString "1db" = false :=
  ⟨by decide, (validDBName_accepts_iff "db_1").2.2.2 (by decide),
   (validDBName_accepts_iff "1db").2.2.1 '1' ['d', 'b'] rfl (Or.inl (by decide))⟩

/-- A rune that `%q` leaves as it is: printable and neither the double quote
nor the backslash. -/
theorem escapedRune_plain (table : Char → Bool) (r : Char)
    (h : IsPrint table r = true ∧ r ≠ Char.ofNat 34 ∧ r ≠ Char.ofNat 92) :
    escapedRune table r = [r] := by
  simp [escapedRune, h.1, h.2.1, h.2.2]

theorem flatMap_escapedRune_plain (table : Char → Bool) (l : List Char)
    (h : ∀ r ∈ l, IsPrint table r = true ∧ r ≠ Char.ofNat 34 ∧ r ≠ Char.ofNat 92) :
    l.flatMap (escapedRune table) = l := by
  induction l with
  | nil => rfl
  | cons r rs ih =>
    rw [List.flatMap_cons, escapedRune_plain table r (h r (List.mem_cons_self r rs)),
      ih (fun x hx => h x (List.mem_cons_of_mem r hx))]
    rfl

/-- C4 (counterexample): for the unregistered driver name made of `a`, a
double quote and `b`, the message of the error of `New` holds the quote in
escaped form, so the name itself does not occur in it. -/
theorem new_message_escapes_name :
    (New (fun _ => false) (fun _ => (none : Option (Driver Unit Unit))) "a\"b" "dsn").err
        = some (GoError.plain "kivik: unknown driver \"a\\\"b\" (forgotten import?)") ∧
      ¬ ("a\"b".data <:+: "kivik: unknown driver \"a\\\"b\" (forgotten import?)".data) := by
  constructor
  · decide
  · decide

/-- C4 (amended): for a driver name that is not registered, `New` returns a
nil client and the error whose message is `kivik: unknown driver`, the name as
`%q` quotes it, and `(forgotten import?)`, and invokes no factory; the message
contains the name itself whenever the name is made of printable characters
other than the double quote and the backslash. For a registered name whose
factory fails, `New` returns a nil client and the factory's error. -/
theorem new_unknown_or_failing_driver (table : Char → Bool)
    (drivers : String → Option (Driver σ α)) (driverName dataSourceName : String) :
    (drivers driverName = none →
      (New table drivers driverName dataSourceName).client = none ∧
      (New table drivers driverName dataSourceName).err = some (GoError.plain
        ("kivik: unknown driver " ++ Quote table driverName ++ " (forgotten import?)")) ∧
      (New table drivers driverName dataSourceName).factoryCalls = [] ∧
      ((∀ r ∈ driverName.data,
          IsPrint table r = true ∧ r ≠ Char.ofNat 34 ∧ r ≠ Char.ofNat 92) →
        driverName.data <:+:
          ("kivik: unknown driver " ++ Quote table driverName ++ " (forgotten import?)").data)) ∧
    (∀ d e, drivers driverName = some d → d.NewClient dataSourceName = Except.error e →
      (New table drivers driverName dataSourceName).client = none ∧
      (New table drivers driverName dataSourceName).err = some e) := by
  constructor
  · intro h
    refine ⟨by simp [New, h], by simp [New, h], by simp [New, h], ?_⟩
    intro hp
    refine ⟨"kivik: unknown driver ".data ++ [Char.ofNat 34],
      [Char.ofNat 34] ++ " (forgotten import?)".data, ?_⟩
    simp only [String.data_append, Quote, flatMap_escapedRune_plain table _ hp]
    simp
  · intro d e hd he
    simp [New, hd, he]

theorem new_unknown_or_failing_driver_witness :
    (New (fun _ => false) (fun n => if n = "broken" then some failingDriver else none)
        "couch" "dsn").err
        = some (GoError.plain "kivik: unknown driver \"couch\" (forgotten import?)") ∧
      "couch".data <:+: "kivik: unknown driver \"couch\" (forgotten import?)".data ∧
      (New (fun _ => false) (fun n => if n = "broken" then some failingDriver else none)
        "broken" "dsn").err = some (GoError.status 500 "connection refused") :=
  ⟨((new_unknown_or_failing_driver (fun _ => false)
      (fun n => if n = "broken" then some failingDriver else none) "couch" "dsn").1
      (if_neg (by decide))).2.1,
   ((new_unknown_or_failing_driver (fun _ => false)
      (fun n => if n = "broken" then some failingDriver else none) "couch" "dsn").1
      (if_neg (by decide))).2.2.2 (by decide),
   ((new_unknown_or_failing_driver (fun _ => false)
      (fun n => if n = "broken" then some failingDriver else none) "broken" "dsn").2
      failingDriver (GoError.status 500 "connection refused") (if_pos rfl) rfl).2⟩

/-- C5: for a negative count `Client.UUIDs` returns a nil list and the
BadRequest error (status 400) whether or not the backend implements the UUID
generator, and the backend is not called. -/
theorem uuids_negative_count_badRequest (c : Client σ α) (count : Int) (st : σ)
    (h : count < 0) :
    (Client.UUIDs c count st).result
        = (none, some (GoError.status StatusBadRequest "count must be a positive integer")) ∧
      StatusBadRequest = 400 ∧
      (Client.UUIDs c count st).calls = [] ∧
      (Client.UUIDs c count st).state = st := by
  simp [Client.UUIDs, h, StatusBadRequest]

theorem uuids_negative_count_badRequest_witness :
    (Client.UUIDs exampleClient (-1) ()).result
        = (none, some (GoError.status 400 "count must be a positive integer")) ∧
      (Client.UUIDs { exampleClient with driverClient := minimalBackend } (-1) ()).result
        = (none, some (GoError.status 400 "count must be a positive integer")) ∧
      (Client.UUIDs exampleClient (-1) ()).calls = [] :=
  ⟨(uuids_negative_count_badRequest exampleClient (-1) () (by decide)).1,
   (uuids_negative_count_badRequest { exampleClient with driverClient := minimalBackend }
      (-1) () (by decide)).1,
   (uuids_negative_count_badRequest exampleClient (-1) () (by decide)).2.2.1⟩

/-- C6: when the backend does not implement the optional interface concerned,
`Client.Authenticate`, `Client.UUIDs` (for a count that is not negative),
`Client.Membership` and `Client.Log` each return `ErrNotImplemented` next to
nil or zero values, without calling the backend. -/
theorem missing_capability_notImplemented (c : Client σ α) (st : σ) :
    (c.driverClient.Authenticator = none → ∀ a,
      Client.Authenticate c a st
        = { result := some ErrNotImplemented, state := st, calls := [] }) ∧
    (c.driverClient.UUIDer = none → ∀ count : Int, 0 ≤ count →
      Client.UUIDs c count st
        = { result := (none, some ErrNotImplemented), state := st, calls := [] }) ∧
    (c.driverClient.Cluster = none →
      Client.Membership c st
        = { result := (none, none, some ErrNotImplemented), state := st, calls := [] }) ∧
    (c.driverClient.Logger = none → ∀ buf offset,
      Client.Log c buf offset st
        = { result := (buf, 0, some ErrNotImplemented), state := st, calls := [] }) := by
  refine ⟨?_, ?_, ?_, ?_⟩
  · intro h a
    simp [Client.Authenticate, h]
  · intro h count hc
    simp [Client.UUIDs, h, not_lt.mpr hc]
  · intro h
    simp [Client.Membership, h]
  · intro h buf offset
    simp [Client.Log, h]

theorem missing_capability_notImplemented_witness :
    Client.UUIDs { exampleClient with driverClient := minimalBackend } 3 ()
        = { result := (none, some ErrNotImplemented), state := (), calls := [] } ∧
      Client.Authenticate exampleClient () ()
        = { result := some ErrNotImplemented, state := (), calls := [] } ∧
      Client.Membership exampleClient ()
        = { result := (none, none, some ErrNotImplemented), state := (), calls := [] } ∧
      Client.Log exampleClient [0, 0] 5 ()
        = { result := ([0, 0], 0, some ErrNotImplemented), state := (), calls := [] } :=
  ⟨(missing_capability_notImplemented
      { exampleClient with driverClient := minimalBackend } ()).2.1 rfl 3 (by decide),
   (missing_capability_notImplemented exampleClient ()).1 rfl (),
   (missing_capability_notImplemented exampleClient ()).2.2.1 rfl,
   (missing_capability_notImplemented exampleClient ()).2.2.2 rfl [0, 0] 5⟩

/-- C7: for a count that is not negative (zero included) and a backend that
implements the UUID generator, `Client.UUIDs` calls the generator exactly
once, with that count, and returns the list and the error the generator
returned. -/
theorem uuids_delegates_to_backend (c : Client σ α) (count : Int) (st : σ)
    (uuider : Int → σ → (Option (List String) × Option GoError) × σ)
    (hc : 0 ≤ count) (hu : c.driverClient.UUIDer = some uuider) :
    Client.UUIDs c count st =
      { result := (uuider count st).1
        state := (uuider count st).2
        calls := [DriverCall.UUIDs count] } := by
  simp [Client.UUIDs, hu, not_lt.mpr hc]

theorem uuids_delegates_to_backend_witness :
    Client.UUIDs exampleClient 2 ()
        = { result := (some ["u", "u"], none), state := (), calls := [DriverCall.UUIDs 2] } ∧
      Client.UUIDs exampleClient 0 ()
        = { result := (some [], none), state := (), calls := [DriverCall.UUIDs 0] } :=
  ⟨uuids_delegates_to_backend exampleClient 2 ()
      (fun count st => ((some (List.replicate count.toNat "u"), none), st)) (by decide) rfl,
   uuids_delegates_to_backend exampleClient 0 ()
      (fun count st => ((some (List.replicate count.toNat "u"), none), st)) (by decide) rfl⟩

/-- Outside the login and logout calls `Authenticate` is `validateCookie`. -/
theorem authenticate_eq_validateCookie (s : Service) (w : ResponseWriter) (r : Request)
    (hr : ¬ isSessionCall r) : Authenticate s w r = validateCookie s w r := by
  unfold isSessionCall at hr
  unfold Authenticate
  have h₁ : ¬ (r.Path = "/_session" ∧ r.Method = MethodPost) :=
    fun h => hr ⟨h.1, Or.inl h.2⟩
  have h₂ : ¬ (r.Path = "/_session" ∧ r.Method = MethodDelete) :=
    fun h => hr ⟨h.1, Or.inr h.2⟩
  rw [if_neg h₁, if_neg h₂]

/-- Whatever the request, `validateCookie` reports no error, writes nothing
and does not panic. -/
theorem validateCookie_silent (s : Service) (w : ResponseWriter) (r : Request) :
    (validateCookie s w r).err = none ∧ (validateCookie s w r).w = w ∧
      (validateCookie s w r).panicked = false := by
  unfold validateCookie
  cases r.Cookie SessionCookieName with
  | none => exact ⟨rfl, rfl, rfl⟩
  | some c =>
    dsimp only
    cases (s.DecodeCookie c.2).2.2 with
    | some e => exact ⟨rfl, rfl, rfl⟩
    | none =>
      dsimp only
      cases (s.UserCtx (s.DecodeCookie c.2).1).2 with
      | some e => exact ⟨rfl, rfl, rfl⟩
      | none =>
        dsimp only
        split <;> exact ⟨rfl, rfl, rfl⟩

theorem validateCookie_failure (s : Service) (w : ResponseWriter) (r : Request)
    (hf : CookieFailure s r) : (validateCookie s w r).user = none := by
  unfold validateCookie
  rcases hf with h | ⟨c, hc, h⟩
  · rw [h]
  · rw [hc]
    dsimp only
    cases hd : (s.DecodeCookie c.2).2.2 with
    | some e => rfl
    | none =>
      dsimp only
      cases hu : (s.UserCtx (s.DecodeCookie c.2).1).2 with
      | some e => rfl
      | none =>
        dsimp only
        rcases h with h | h | h | h
        · exact absurd hd h
        · exact absurd hu h
        · cases hv : (s.ValidateCookie (s.UserCtx (s.DecodeCookie c.2).1).1 c.2).2 with
          | none => exact absurd hv h
          | some e => simp
        · simp [h]

/-- C8: for a request that is not a POST or DELETE on `/_session`, every
failure of cookie validation (no session cookie, a value that does not decode,
a failed user-store lookup, a token validation that errs or answers false)
makes `Authenticate` return a nil user and a nil error, leaving the response
untouched; so two failing requests get the same result. -/
theorem authenticate_failures_indistinguishable (s₁ s₂ : Service) (w₁ w₂ : ResponseWriter)
    (r₁ r₂ : Request) (h₁ : ¬ isSessionCall r₁) (h₂ : ¬ isSessionCall r₂)
    (f₁ : CookieFailure s₁ r₁) (f₂ : CookieFailure s₂ r₂) :
    ((Authenticate s₁ w₁ r₁).user = none ∧ (Authenticate s₁ w₁ r₁).err = none ∧
      (Authenticate s₁ w₁ r₁).w = w₁) ∧
    ((Authenticate s₁ w₁ r₁).user, (Authenticate s₁ w₁ r₁).err)
      = ((Authenticate s₂ w₂ r₂).user, (Authenticate s₂ w₂ r₂).err) := by
  rw [authenticate_eq_validateCookie s₁ w₁ r₁ h₁, authenticate_eq_validateCookie s₂ w₂ r₂ h₂]
  have a₁ := validateCookie_silent s₁ w₁ r₁
  have a₂ := validateCookie_silent s₂ w₂ r₂
  have b₁ := validateCookie_failure s₁ w₁ r₁ f₁
  have b₂ := validateCookie_failure s₂ w₂ r₂ f₂
  exact ⟨⟨b₁, a₁.1, a₁.2.1⟩, by rw [b₁, b₂, a₁.1, a₂.1]⟩

theorem authenticate_failures_indistinguishable_witness :
    ((Authenticate exampleService ResponseWriter.fresh
        (exampleRequest "GET" "/db" [] "")).user,
      (Authenticate exampleService ResponseWriter.fresh
        (exampleRequest "GET" "/db" [] "")).err)
    = ((Authenticate exampleService ResponseWriter.fresh
        (exampleRequest "GET" "/db" [("AuthSession", "eve:token")] "")).user,
      (Authenticate exampleService ResponseWriter.fresh
        (exampleRequest "GET" "/db" [("AuthSession", "eve:token")] "")).err) :=
  (authenticate_failures_indistinguishable exampleService exampleService
    ResponseWriter.fresh ResponseWriter.fresh
    (exampleRequest "GET" "/db" [] "")
    (exampleRequest "GET" "/db" [("AuthSession", "eve:token")] "")
    (by unfold isSessionCall; decide) (by unfold isSessionCall; decide)
    (Or.inl (by decide))
    (Or.inr ⟨("AuthSession", "eve:token"), by decide, Or.inr (Or.inl (by decide))⟩)).2

/-- C9: `validateCookie` returns the user `u` exactly when the session cookie
is present, its value decodes without error to a name, the user-store lookup
of that name succeeds with the record `u`, and `ValidateCookie` of `u` and the
cookie value returns true without error; the user returned is thus the record
fetched from the store during this request. -/
theorem validateCookie_user_iff (s : Service) (w : ResponseWriter) (r : Request)
    (u : UserContext) :
    (validateCookie s w r).user = some u ↔
      ∃ c, r.Cookie SessionCookieName = some c ∧
        (s.DecodeCookie c.2).2.2 = none ∧
        s.UserCtx (s.DecodeCookie c.2).1 = (some u, none) ∧
        s.ValidateCookie (some u) c.2 = (true, none) := by
  unfold validateCookie
  cases hc : r.Cookie SessionCookieName with
  | none => simp
  | some c =>
    simp only [Option.some.injEq, exists_eq_left']
    generalize hl : s.UserCtx (s.DecodeCookie c.2).1 = lk
    generalize hd : (s.DecodeCookie c.2).2.2 = de
    rcases lk with ⟨looked, lerr⟩
    cases de with
    | some e => simp
    | none =>
      cases lerr with
      | some e => simp
      | none =>
        dsimp only
        by_cases hlu : looked = some u
        · subst hlu
          generalize s.ValidateCookie (some u) c.2 = vr
          rcases vr with ⟨valid, verr⟩
          cases verr <;> cases valid <;> simp
        · have hne : ¬ ((looked, (none : Option GoError)) = (some u, none)) := by
            intro h
            exact hlu (congrArg Prod.fst h)
          split <;> simp [hlu, hne]

/-- Without a name among the bound fields `postSession` stops at one of its
first two checks. -/
theorem postSession_no_name (s : Service) (w : ResponseWriter) (r : Request)
    (h : (s.BindParams r).1.Name = none) :
    postSession s w r =
      { user := none
        err := some (GoError.status StatusBadRequest
          (if (s.BindParams r).2.isSome then "unable to parse request data"
           else "request body must contain a username"))
        w := w, calls := [], panicked := false } := by
  unfold postSession
  dsimp only
  cases (s.BindParams r).2 with
  | some e => rfl
  | none =>
    dsimp only
    rw [h]
    rfl

/-- C10: when the fields bound from a login request hold no name,
`postSession` returns a BadRequest error (status 400), calls neither
`Validate` nor any other method of the service, and writes no cookie, header
or body. -/
theorem postSession_missing_name_badRequest (s : Service) (w : ResponseWriter) (r : Request)
    (h : (s.BindParams r).1.Name = none) :
    (∃ msg, (postSession s w r).err = some (GoError.status StatusBadRequest msg)) ∧
      StatusBadRequest = 400 ∧
      ((s.BindParams r).2 = none → (postSession s w r).err
        = some (GoError.status StatusBadRequest "request body must contain a username")) ∧
      (∀ name password, ServiceCall.Validate name password ∉ (postSession s w r).calls) ∧
      (postSession s w r).calls = [] ∧
      (postSession s w r).w = w ∧
      (postSession s w r).panicked = false := by
  rw [postSession_no_name s w r h]
  refine ⟨⟨_, rfl⟩, rfl, ?_, ?_, rfl, rfl, rfl⟩
  · intro hn
    simp [hn]
  · intro name password
    simp

theorem postSession_missing_name_badRequest_witness :
    (postSession exampleService ResponseWriter.fresh
        (exampleRequest "POST" "/_session" [] "password=secret")).err
        = some (GoError.status 400 "request body must contain a username") ∧
      (postSession exampleService ResponseWriter.fresh
        (exampleRequest "POST" "/_session" [] "password=secret")).calls = [] ∧
      (postSession exampleService ResponseWriter.fresh
        (exampleRequest "POST" "/_session" [] "password=secret")).w = ResponseWriter.fresh :=
  ⟨(postSession_missing_name_badRequest exampleService ResponseWriter.fresh
      (exampleRequest "POST" "/_session" [] "password=secret") (by decide)).2.2.1 (by decide),
   (postSession_missing_name_badRequest exampleService ResponseWriter.fresh
      (exampleRequest "POST" "/_session" [] "password=secret") (by decide)).2.2.2.2.1,
   (postSession_missing_name_badRequest exampleService ResponseWriter.fresh
      (exampleRequest "POST" "/_session" [] "password=secret") (by decide)).2.2.2.2.2.1⟩

/-- The run of `postSession` once the fields are bound and hold a name: what
remains is decided by the store, the timeout, the redirect target and the
token. -/
theorem postSession_named (s : Service) (w : ResponseWriter) (r : Request) (name : String)
    (hb : (s.BindParams r).2 = none) (hn : (s.BindParams r).1.Name = some name) :
    postSession s w r =
      match (s.Validate name (s.BindParams r).1.Password).2 with
      | some err =>
          { user := none, err := some err, w := w
            calls := [ServiceCall.Validate name (s.BindParams r).1.Password], panicked := false }
      | none =>
      match (getSessionTimeout s).1.2 with
      | some err =>
          { user := none, err := some err, w := w
            calls := [ServiceCall.Validate name (s.BindParams r).1.Password]
              ++ (getSessionTimeout s).2
            panicked := false }
      | none =>
      match (redirectURL s r).2 with
      | some err =>
          { user := none, err := some err, w := w
            calls := [ServiceCall.Validate name (s.BindParams r).1.Password]
              ++ (getSessionTimeout s).2
            panicked := false }
      | none =>
      match (s.Validate name (s.BindParams r).1.Password).1 with
      | none =>
          { user := none, err := none, w := w
            calls := [ServiceCall.Validate name (s.BindParams r).1.Password]
              ++ (getSessionTimeout s).2
            panicked := true }
      | some user =>
      match (s.CreateAuthToken name user.Salt s.Now).2 with
      | some err =>
          { user := none, err := some err, w := w
            calls := [ServiceCall.Validate name (s.BindParams r).1.Password]
              ++ (getSessionTimeout s).2 ++ [ServiceCall.CreateAuthToken name user.Salt s.Now]
            panicked := false }
      | none =>
          { user := none, err := none
            w := (if (redirectURL s r).1 ≠ "" then
                    ((((w.headerSet "Cache-Control" "must-revalidate").SetCookie
                      { Name := SessionCookieName
                        Value := (s.CreateAuthToken name user.Salt s.Now).1
                        Path := "/", MaxAge := (getSessionTimeout s).1.1
                        HttpOnly := true }).headerAdd "Content-Type" TypeJSON).headerAdd
                      "Location" (redirectURL s r).1).WriteHeader StatusFound
                  else
                    ((w.headerSet "Cache-Control" "must-revalidate").SetCookie
                      { Name := SessionCookieName
                        Value := (s.CreateAuthToken name user.Salt s.Now).1
                        Path := "/", MaxAge := (getSessionTimeout s).1.1
                        HttpOnly := true }).headerAdd "Content-Type" TypeJSON).Encode
                [("name", .str user.Name), ("ok", .bool true), ("roles", .strs user.Roles)]
            calls := [ServiceCall.Validate name (s.BindParams r).1.Password]
              ++ (getSessionTimeout s).2 ++ [ServiceCall.CreateAuthToken name user.Salt s.Now]
            panicked := false } := by
  unfold postSession
  dsimp only
  rw [hb]
  dsimp only
  rw [hn]

theorem getSessionTimeout_calls (s : Service) :
    (getSessionTimeout s).2 = [ServiceCall.ConfigGet "couch_httpd_auth" "timeout"] := by
  unfold getSessionTimeout
  dsimp only
  split
  · rfl
  · split <;> rfl

/-- C11: when the store rejects the credentials of a login request, that is,
`Validate` returns an error, `postSession` returns that very error, creates no
session token and leaves the response without cookie, header or body. -/
theorem postSession_rejected_credentials (s : Service) (w : ResponseWriter) (r : Request)
    (name : String) (e : GoError)
    (hb : (s.BindParams r).2 = none) (hn : (s.BindParams r).1.Name = some name)
    (hv : (s.Validate name (s.BindParams r).1.Password).2 = some e) :
    (postSession s w r).err = some e ∧
      (∀ n salt t, ServiceCall.CreateAuthToken n salt t ∉ (postSession s w r).calls) ∧
      (postSession s w r).calls = [ServiceCall.Validate name (s.BindParams r).1.Password] ∧
      (postSession s w r).w = w ∧
      (postSession s w r).w.cookies = w.cookies := by
  rw [postSession_named s w r name hb hn, hv]
  refine ⟨rfl, ?_, rfl, rfl, rfl⟩
  intro n salt t
  simp

theorem postSession_rejected_credentials_witness :
    (postSession guessService ResponseWriter.fresh
        (exampleRequest "POST" "/_session" [] "guess")).err
        = some (GoError.status 401 "invalid credentials") ∧
      (postSession guessService ResponseWriter.fresh
        (exampleRequest "POST" "/_session" [] "guess")).w = ResponseWriter.fresh :=
  ⟨(postSession_rejected_credentials guessService ResponseWriter.fresh
      (exampleRequest "POST" "/_session" [] "guess") "bob"
      (GoError.status 401 "invalid credentials") rfl rfl (by decide)).1,
   (postSession_rejected_credentials guessService ResponseWriter.fresh
      (exampleRequest "POST" "/_session" [] "guess") "bob"
      (GoError.status 401 "invalid credentials") rfl rfl (by decide)).2.2.2.1⟩

/-- A redirect target that is supplied and does not begin with a single slash
is refused with BadRequest. -/
theorem redirectURL_bad_target (s : Service) (r : Request) (next : String)
    (hq : s.StringQueryParam r "next" = (next, true))
    (hbad : HasPrefix next "/" = false ∨ HasPrefix next "//" = true) :
    ∃ msg, redirectURL s r = ("", some (GoError.status StatusBadRequest msg)) := by
  unfold redirectURL
  simp only [hq, Bool.not_true, Bool.false_eq_true, if_false]
  cases h₁ : HasPrefix next "/" with
  | false => exact ⟨"redirection url must be relative to server root", by simp⟩
  | true =>
    rcases hbad with h | h
    · rw [h₁] at h; cases h
    · exact ⟨"invalid redirection url", by simp [h]⟩

/-- C12 (counterexample): the store accepts the credentials and the redirect
target begins with two slashes, but the configured session timeout is not a
number: the login fails with the conversion error, not with BadRequest. -/
theorem postSession_bad_redirect_not_badRequest :
    (misconfiguredService.Validate "bob" "secret").2 = none ∧
      misconfiguredService.StringQueryParam (loginRequest "//evil.example") "next"
        = ("//evil.example", true) ∧
      HasPrefix "//evil.example" "//" = true ∧
      (postSession misconfiguredService ResponseWriter.fresh (loginRequest "//evil.example")).err
        = some (GoError.numError "Atoi" "soon" "invalid syntax") ∧
      StatusCode (postSession misconfiguredService ResponseWriter.fresh
        (loginRequest "//evil.example")).err ≠ 400 := by
  refine ⟨by decide, by decide, by decide, by decide, by decide⟩

/-- C12 (amended): when the store accepts the credentials of a login request
and the supplied redirect target does not begin with a slash or begins with
two, the login fails, no session token is created and no cookie is set; the
session timeout is resolved first, so the error is BadRequest (status 400)
whenever the timeout resolves, and the error of the timeout otherwise. -/
theorem postSession_bad_redirect (s : Service) (w : ResponseWriter) (r : Request)
    (name next : String)
    (hb : (s.BindParams r).2 = none) (hn : (s.BindParams r).1.Name = some name)
    (hv : (s.Validate name (s.BindParams r).1.Password).2 = none)
    (hq : s.StringQueryParam r "next" = (next, true))
    (hbad : HasPrefix next "/" = false ∨ HasPrefix next "//" = true) :
    (postSession s w r).err ≠ none ∧
      ((getSessionTimeout s).1.2 = none →
        ∃ msg, (postSession s w r).err = some (GoError.status StatusBadRequest msg)) ∧
      (∀ e, (getSessionTimeout s).1.2 = some e → (postSession s w r).err = some e) ∧
      StatusBadRequest = 400 ∧
      (∀ n salt t, ServiceCall.CreateAuthToken n salt t ∉ (postSession s w r).calls) ∧
      (postSession s w r).w = w ∧
      (postSession s w r).panicked = false := by
  obtain ⟨msg, hmsg⟩ := redirectURL_bad_target s r next hq hbad
  rw [postSession_named s w r name hb hn, hv]
  dsimp only
  cases ht : (getSessionTimeout s).1.2 with
  | some e =>
    dsimp only
    refine ⟨?_, ?_, ?_, rfl, ?_, rfl, rfl⟩
    · simp
    · intro h; cases h
    · intro e' he; exact he
    · intro n salt t
      simp [getSessionTimeout_calls]
  | none =>
    dsimp only
    rw [hmsg]
    dsimp only
    refine ⟨?_, ?_, ?_, rfl, ?_, rfl, rfl⟩
    · simp
    · intro _; exact ⟨msg, rfl⟩
    · intro e' he; cases he
    · intro n salt t
      simp [getSessionTimeout_calls]

theorem postSession_bad_redirect_witness :
    (∃ msg, (postSession exampleService ResponseWriter.fresh
        (loginRequest "//evil.example")).err = some (GoError.status StatusBadRequest msg)) ∧
      (postSession exampleService ResponseWriter.fresh (loginRequest "//evil.example")).w
        = ResponseWriter.fresh :=
  ⟨(postSession_bad_redirect exampleService ResponseWriter.fresh
      (loginRequest "//evil.example") "bob" "//evil.example" rfl rfl (by decide) (by decide)
      (Or.inr (by decide))).2.1 (by decide),
   (postSession_bad_redirect exampleService ResponseWriter.fresh
      (loginRequest "//evil.example") "bob" "//evil.example" rfl rfl (by decide) (by decide)
      (Or.inr (by decide))).2.2.2.2.2.1⟩

theorem digitChar_toNat (d : Nat) (h : d < 10) : (digitChar d).toNat = 48 + d := by
  interval_cases d <;> rfl

theorem isDigit_digitChar (d : Nat) (h : d < 10) : isDigit (digitChar d) = true := by
  interval_cases d <;> rfl

/-- Reading one more digit at the end multiplies by ten and adds the digit. -/
theorem parseDigits_append_digit (l : List Char) (d acc : Nat) (h : d < 10) :
    parseDigits (l ++ [digitChar d]) acc = (parseDigits l acc).map (fun m => m * 10 + d) := by
  induction l generalizing acc with
  | nil =>
    have h₁ := digitChar_toNat d h
    have h0 : '0'.toNat = 48 := rfl
    have h9 : '9'.toNat = 57 := rfl
    simp only [List.nil_append, parseDigits, h₁, h0, h9]
    rw [if_pos (by omega)]
    simp
  | cons c cs ih =>
    simp only [List.cons_append, parseDigits]
    split
    · exact ih _
    · rfl

theorem parseDigits_natDecimalFuel (fuel n : Nat) (h : n < fuel) :
    parseDigits (natDecimalFuel fuel n) 0 = some n := by
  induction fuel generalizing n with
  | zero => omega
  | succ fuel ih =>
    unfold natDecimalFuel
    split
    · rename_i hn
      have := parseDigits_append_digit [] n 0 hn
      simpa [parseDigits] using this
    · rename_i hn
      rw [parseDigits_append_digit _ _ _ (Nat.mod_lt n (by decide)), ih (n / 10) (by omega)]
      simp only [Option.map_some', Option.some.injEq]
      omega

theorem natDecimalFuel_all_digits (fuel n : Nat) :
    (natDecimalFuel fuel n).all isDigit = true := by
  induction fuel generalizing n with
  | zero => rfl
  | succ fuel ih =>
    unfold natDecimalFuel
    split
    · rename_i hn
      simp [isDigit_digitChar n hn]
    · simp [ih, isDigit_digitChar _ (Nat.mod_lt n (by decide : 0 < 10))]

theorem natDecimal_ne_nil (n : Nat) : natDecimal n ≠ [] := by
  unfold natDecimal natDecimalFuel
  split <;> simp

theorem parseDigits_natDecimal (n : Nat) : parseDigits (natDecimal n) 0 = some n :=
  parseDigits_natDecimalFuel (n + 1) n (Nat.lt_succ_self n)

theorem natDecimal_all_digits (n : Nat) : (natDecimal n).all isDigit = true :=
  natDecimalFuel_all_digits (n + 1) n

/-- A digit is neither a sign nor a comma. -/
theorem isDigit_not_special (c : Char) (h : isDigit c = true) :
    c ≠ '+' ∧ c ≠ '-' ∧ c ≠ Char.ofNat 44 := by
  refine ⟨?_, ?_, ?_⟩ <;> (intro hc; subst hc; revert h; decide)

theorem natDecimal_head (n : Nat) :
    (natDecimal n).head? ≠ some '+' ∧ (natDecimal n).head? ≠ some '-' := by
  have hall := natDecimal_all_digits n
  have hne := natDecimal_ne_nil n
  cases hd : natDecimal n with
  | nil => exact absurd hd hne
  | cons c cs =>
    rw [hd] at hall
    simp only [List.all_cons, Bool.and_eq_true] at hall
    have := isDigit_not_special c hall.1
    simp [this.1, this.2.1]

/-- The conversion reads back the numeral of every integer of the range of
`int`. -/
theorem Atoi_Itoa (n : Int) (hlo : -(2 ^ 63) ≤ n) (hhi : n < 2 ^ 63) :
    Atoi (Itoa n) = (n, none) := by
  have hh := natDecimal_head n.natAbs
  have hne := natDecimal_ne_nil n.natAbs
  have hp := parseDigits_natDecimal n.natAbs
  unfold Atoi Itoa
  by_cases hneg : n < 0
  · have habs : (n.natAbs : Int) = -n := Int.ofNat_natAbs_of_nonpos (le_of_lt hneg)
    have h₁ : ¬ (2 ^ 63 < n.natAbs) := by omega
    simp only [hneg, if_true, List.head?_cons, true_or, or_true, List.tail_cons, hne, if_false,
      hp]
    simp only [h₁, and_false, if_false, not_true_eq_false, false_and, habs, neg_neg]
  · have habs : (n.natAbs : Int) = n := Int.natAbs_of_nonneg (not_lt.mp hneg)
    have h₁ : ¬ (2 ^ 63 ≤ n.natAbs) := by omega
    simp only [hneg, if_false, hh.1, hh.2, or_self, hne, hp]
    simp only [h₁, and_false, if_false, false_and, habs]

theorem parseDigits_none (l : List Char) (acc : Nat) (h : l.all isDigit = false) :
    parseDigits l acc = none := by
  induction l generalizing acc with
  | nil => simp at h
  | cons c cs ih =>
    unfold parseDigits
    by_cases hc : '0'.toNat ≤ c.toNat ∧ c.toNat ≤ '9'.toNat
    · rw [if_pos hc]
      apply ih
      have hd : isDigit c = true := by unfold isDigit; exact decide_eq_true hc
      simpa [hd] using h
    · rw [if_neg hc]

/-- The conversion fails with a syntax error on every text that is not a
decimal integer. -/
theorem Atoi_not_decimal (v : String) (h : isDecimalInteger v = false) :
    Atoi v = (0, some (GoError.numError "Atoi" v "invalid syntax")) := by
  unfold isDecimalInteger at h
  unfold Atoi
  dsimp only at h ⊢
  generalize (if v.data.head? = some '+' ∨ v.data.head? = some '-' then v.data.tail
    else v.data) = digits at h ⊢
  by_cases hd : digits = []
  · simp [hd]
  · have hall : digits.all isDigit = false := by
      cases digits with
      | nil => exact absurd rfl hd
      | cons c cs => simpa using h
    simp [hd, parseDigits_none digits 0 hall]

/-- C13: `getSessionTimeout` returns the default timeout and no error when the
lookup of `couch_httpd_auth`/`timeout` fails with NotFound; zero and the
lookup's error when it fails otherwise; and else what `strconv.Atoi` makes of
the configured value: the integer whose decimal numeral it is, or a parse
error when the value is not a decimal integer. -/
theorem getSessionTimeout_cases (s : Service) :
    (StatusCode (s.ConfigGet "couch_httpd_auth" "timeout").2 = StatusNotFound →
      (getSessionTimeout s).1 = (DefaultSessionTimeout, none)) ∧
    (∀ e, (s.ConfigGet "couch_httpd_auth" "timeout").2 = some e →
      StatusCode (some e) ≠ StatusNotFound → (getSessionTimeout s).1 = (0, some e)) ∧
    ((s.ConfigGet "couch_httpd_auth" "timeout").2 = none →
      (getSessionTimeout s).1 = Atoi (s.ConfigGet "couch_httpd_auth" "timeout").1 ∧
      (∀ n : Int, -(2 ^ 63) ≤ n → n < 2 ^ 63 →
        (s.ConfigGet "couch_httpd_auth" "timeout").1 = Itoa n →
        (getSessionTimeout s).1 = (n, none)) ∧
      (isDecimalInteger (s.ConfigGet "couch_httpd_auth" "timeout").1 = false →
        (getSessionTimeout s).1 = (0, some (GoError.numError "Atoi"
          (s.ConfigGet "couch_httpd_auth" "timeout").1 "invalid syntax")))) := by
  refine ⟨?_, ?_, ?_⟩
  · intro h
    simp [getSessionTimeout, h]
  · intro e he hne
    simp [getSessionTimeout, he, hne]
  · intro h
    have h₀ : (getSessionTimeout s).1 = Atoi (s.ConfigGet "couch_httpd_auth" "timeout").1 := by
      simp [getSessionTimeout, h, StatusCode, StatusNotFound]
    refine ⟨h₀, ?_, ?_⟩
    · intro n hlo hhi hv
      rw [h₀, hv, Atoi_Itoa n hlo hhi]
    · intro hv
      rw [h₀, Atoi_not_decimal _ hv]

theorem getSessionTimeout_cases_witness :
    (getSessionTimeout exampleService).1 = (DefaultSessionTimeout, none) ∧
      (getSessionTimeout hourService).1 = (3600, none) ∧
      (getSessionTimeout misconfiguredService).1
        = (0, some (GoError.numError "Atoi" "soon" "invalid syntax")) ∧
      (getSessionTimeout
          { exampleService with ConfigGet := fun _ _ => ("", some (GoError.plain "disk")) }).1
        = (0, some (GoError.plain "disk")) :=
  ⟨(getSessionTimeout_cases exampleService).1 (by decide),
   ((getSessionTimeout_cases hourService).2.2 rfl).2.1 3600 (by decide) (by decide) (by decide),
   ((getSessionTimeout_cases misconfiguredService).2.2 rfl).2.2 (by decide),
   (getSessionTimeout_cases
      { exampleService with ConfigGet := fun _ _ => ("", some (GoError.plain "disk")) }).2.1
      (GoError.plain "disk") rfl (by decide)⟩

/-- A login succeeds when `postSession` returns no error and does not panic;
then every step before the response succeeded and the response is written in
full. -/
theorem postSession_success (s : Service) (w : ResponseWriter) (r : Request)
    (hs : (postSession s w r).err = none) (hp : (postSession s w r).panicked = false) :
    ∃ name user,
      (s.BindParams r).2 = none ∧ (s.BindParams r).1.Name = some name ∧
      s.Validate name (s.BindParams r).1.Password = (some user, none) ∧
      (getSessionTimeout s).1.2 = none ∧ (redirectURL s r).2 = none ∧
      (s.CreateAuthToken name user.Salt s.Now).2 = none ∧
      (postSession s w r).w =
        (if (redirectURL s r).1 ≠ "" then
            ((((w.headerSet "Cache-Control" "must-revalidate").SetCookie
              { Name := SessionCookieName
                Value := (s.CreateAuthToken name user.Salt s.Now).1
                Path := "/", MaxAge := (getSessionTimeout s).1.1
                HttpOnly := true }).headerAdd "Content-Type" TypeJSON).headerAdd
              "Location" (redirectURL s r).1).WriteHeader StatusFound
          else
            ((w.headerSet "Cache-Control" "must-revalidate").SetCookie
              { Name := SessionCookieName
                Value := (s.CreateAuthToken name user.Salt s.Now).1
                Path := "/", MaxAge := (getSessionTimeout s).1.1
                HttpOnly := true }).headerAdd "Content-Type" TypeJSON).Encode
        [("name", .str user.Name), ("ok", .bool true), ("roles", .strs user.Roles)] ∧
      (postSession s w r).calls =
        [ServiceCall.Validate name (s.BindParams r).1.Password,
         ServiceCall.ConfigGet "couch_httpd_auth" "timeout",
         ServiceCall.CreateAuthToken name user.Salt s.Now] := by
  cases hb : (s.BindParams r).2 with
  | some e =>
    have : (postSession s w r).err ≠ none := by
      unfold postSession; dsimp only; rw [hb]; simp
    exact absurd hs this
  | none =>
  cases hn : (s.BindParams r).1.Name with
  | none =>
    have : (postSession s w r).err ≠ none := by
      rw [postSession_no_name s w r hn]; simp
    exact absurd hs this
  | some name =>
  rw [postSession_named s w r name hb hn] at hs hp ⊢
  generalize hv : s.Validate name (s.BindParams r).1.Password = v at hs hp ⊢
  rcases v with ⟨vu, ve⟩
  cases ve with
  | some e => simp at hs
  | none =>
  dsimp only at hs hp ⊢
  cases ht : (getSessionTimeout s).1.2 with
  | some e => rw [ht] at hs; simp at hs
  | none =>
  rw [ht] at hs hp
  dsimp only at hs hp ⊢
  cases hr : (redirectURL s r).2 with
  | some e => rw [hr] at hs; simp at hs
  | none =>
  rw [hr] at hs hp
  dsimp only at hs hp ⊢
  cases vu with
  | none => simp at hp
  | some user =>
  dsimp only at hs hp ⊢
  cases hk : (s.CreateAuthToken name user.Salt s.Now).2 with
  | some e => rw [hk] at hs; simp at hs
  | none =>
  dsimp only
  refine ⟨name, user, rfl, rfl, hv, rfl, rfl, hk, rfl, ?_⟩
  simp [getSessionTimeout_calls]

/-- C14: on every successful login `postSession` adds exactly one cookie to the
response: it bears the session cookie name, its value is the token that
`CreateAuthToken` returned for the name of the request, the salt of the user
returned by `Validate` and the current Unix time, its path is `/`, its max-age
is the resolved session timeout, and it is HTTP-only. -/
theorem postSession_sets_session_cookie (s : Service) (w : ResponseWriter) (r : Request)
    (hs : (postSession s w r).err = none) (hp : (postSession s w r).panicked = false) :
    ∃ name user,
      (s.BindParams r).1.Name = some name ∧
      s.Validate name (s.BindParams r).1.Password = (some user, none) ∧
      (getSessionTimeout s).1.2 = none ∧
      (s.CreateAuthToken name user.Salt s.Now).2 = none ∧
      ServiceCall.CreateAuthToken name user.Salt s.Now ∈ (postSession s w r).calls ∧
      (postSession s w r).w.cookies = w.cookies ++
        [{ Name := SessionCookieName
           Value := (s.CreateAuthToken name user.Salt s.Now).1
           Path := "/"
           MaxAge := (getSessionTimeout s).1.1
           HttpOnly := true }] := by
  obtain ⟨name, user, _, hn, hv, ht, _, hk, hw, hc⟩ := postSession_success s w r hs hp
  refine ⟨name, user, hn, hv, ht, hk, ?_, ?_⟩
  · rw [hc]; simp
  · rw [hw]
    split <;> rfl

theorem postSession_sets_session_cookie_witness :
    ∃ name user,
      (hourService.BindParams (loginRequest "/_utils")).1.Name = some name ∧
      hourService.Validate name (hourService.BindParams (loginRequest "/_utils")).1.Password
        = (some user, none) ∧
      (getSessionTimeout hourService).1.2 = none ∧
      (hourService.CreateAuthToken name user.Salt hourService.Now).2 = none ∧
      ServiceCall.CreateAuthToken name user.Salt hourService.Now ∈
        (postSession hourService ResponseWriter.fresh (loginRequest "/_utils")).calls ∧
      (postSession hourService ResponseWriter.fresh (loginRequest "/_utils")).w.cookies
        = ResponseWriter.fresh.cookies ++
          [{ Name := SessionCookieName
             Value := (hourService.CreateAuthToken name user.Salt hourService.Now).1
             Path := "/"
             MaxAge := (getSessionTimeout hourService).1.1
             HttpOnly := true }] :=
  postSession_sets_session_cookie hourService ResponseWriter.fresh (loginRequest "/_utils")
    (by decide) (by decide)

/-- A redirect target that is accepted is either absent, and then the result
is empty, or it begins with a single slash and the result is the text of its
parsed form. -/
theorem redirectURL_ok (s : Service) (r : Request) (h : (redirectURL s r).2 = none) :
    ((s.StringQueryParam r "next").2 = false ∧ (redirectURL s r).1 = "") ∨
    ((s.StringQueryParam r "next").2 = true ∧
      HasPrefix (s.StringQueryParam r "next").1 "/" = true ∧
      HasPrefix (s.StringQueryParam r "next").1 "//" = false ∧
      s.URLParse (s.StringQueryParam r "next").1 = ((redirectURL s r).1, none)) := by
  unfold redirectURL at h ⊢
  dsimp only at h ⊢
  cases hq : (s.StringQueryParam r "next").2 with
  | false => left; simp
  | true =>
    right
    rw [hq] at h
    simp only [Bool.not_true, Bool.false_eq_true, if_false] at h ⊢
    cases h₁ : HasPrefix (s.StringQueryParam r "next").1 "/" with
    | false => rw [h₁] at h; simp at h
    | true =>
      rw [h₁] at h
      simp only [Bool.not_true, Bool.false_eq_true, if_false] at h ⊢
      cases h₂ : HasPrefix (s.StringQueryParam r "next").1 "//" with
      | true => rw [h₂] at h; simp at h
      | false =>
        rw [h₂] at h
        simp only [Bool.false_eq_true, if_false] at h ⊢
        generalize s.URLParse (s.StringQueryParam r "next").1 = u at h ⊢
        rcases u with ⟨p, pe⟩
        cases pe with
        | some e => simp at h
        | none => simp

theorem hasPrefix_slash_ne_empty (x : String) (h : HasPrefix x "/" = true) : x ≠ "" := by
  intro hx
  subst hx
  revert h
  decide

/-- C15: on every successful login the body written is the JSON object with
`ok` true, `name` the name and `roles` the roles of the user the store
returned. If a redirect target that is not empty was supplied, the status is
302 and a `Location` header with the resolved target is added; otherwise no
`Location` header is added and the status is the default 200. The response
has no status before the handler runs, and the text of a parsed URL that
begins with a slash is not empty. -/
theorem postSession_success_response (s : Service) (w : ResponseWriter) (r : Request)
    (hs : (postSession s w r).err = none) (hp : (postSession s w r).panicked = false)
    (hw : w.status = none)
    (hurl : ∀ x p, HasPrefix x "/" = true → s.URLParse x = (p, none) → p ≠ "") :
    ∃ name user,
      (s.BindParams r).1.Name = some name ∧
      s.Validate name (s.BindParams r).1.Password = (some user, none) ∧
      (postSession s w r).w.body = w.body ++
        [[("name", .str user.Name), ("ok", .bool true), ("roles", .strs user.Roles)]] ∧
      (((s.StringQueryParam r "next").2 = true ∧ (s.StringQueryParam r "next").1 ≠ "") →
        (postSession s w r).w.status = some StatusFound ∧ StatusFound = 302 ∧
        (redirectURL s r).1 = (s.URLParse (s.StringQueryParam r "next").1).1 ∧
        (postSession s w r).w.header =
          ((w.headerSet "Cache-Control" "must-revalidate").headerAdd
            "Content-Type" TypeJSON).header ++ [("Location", (redirectURL s r).1)]) ∧
      (¬ ((s.StringQueryParam r "next").2 = true ∧ (s.StringQueryParam r "next").1 ≠ "") →
        (postSession s w r).w.status = some 200 ∧
        (postSession s w r).w.header =
          ((w.headerSet "Cache-Control" "must-revalidate").headerAdd
            "Content-Type" TypeJSON).header) := by
  obtain ⟨name, user, _, hn, hv, _, hr, _, hww, _⟩ := postSession_success s w r hs hp
  refine ⟨name, user, hn, hv, ?_, ?_, ?_⟩
  · rw [hww]
    split <;> rfl
  · rintro ⟨hq, _⟩
    rcases redirectURL_ok s r hr with ⟨hq', _⟩ | ⟨_, h₁, _, hu⟩
    · rw [hq] at hq'; cases hq'
    · have hne : (redirectURL s r).1 ≠ "" := hurl _ _ h₁ hu
      rw [hww, if_pos hne, hu]
      refine ⟨?_, rfl, rfl, rfl⟩
      simp [ResponseWriter.Encode, ResponseWriter.WriteHeader, ResponseWriter.headerAdd,
        ResponseWriter.SetCookie, ResponseWriter.headerSet, hw]
  · intro hno
    rcases redirectURL_ok s r hr with ⟨_, he⟩ | ⟨hq, h₁, _, _⟩
    · rw [hww, he]
      simp [ResponseWriter.Encode, ResponseWriter.headerAdd, ResponseWriter.SetCookie,
        ResponseWriter.headerSet, hw]
    · exact absurd ⟨hq, hasPrefix_slash_ne_empty _ h₁⟩ hno

theorem postSession_success_response_witness :
    ∃ name user,
      (hourService.BindParams (loginRequest "/_utils")).1.Name = some name ∧
      hourService.Validate name (hourService.BindParams (loginRequest "/_utils")).1.Password
        = (some user, none) ∧
      (postSession hourService ResponseWriter.fresh (loginRequest "/_utils")).w.body
        = ResponseWriter.fresh.body ++
          [[("name", .str user.Name), ("ok", .bool true), ("roles", .strs user.Roles)]] ∧
      (((hourService.StringQueryParam (loginRequest "/_utils") "next").2 = true ∧
          (hourService.StringQueryParam (loginRequest "/_utils") "next").1 ≠ "") →
        (postSession hourService ResponseWriter.fresh (loginRequest "/_utils")).w.status
          = some StatusFound ∧ StatusFound = 302 ∧
        (redirectURL hourService (loginRequest "/_utils")).1
          = (hourService.URLParse
              (hourService.StringQueryParam (loginRequest "/_utils") "next").1).1 ∧
        (postSession hourService ResponseWriter.fresh (loginRequest "/_utils")).w.header =
          ((ResponseWriter.fresh.headerSet "Cache-Control" "must-revalidate").headerAdd
            "Content-Type" TypeJSON).header
            ++ [("Location", (redirectURL hourService (loginRequest "/_utils")).1)]) ∧
      (¬ ((hourService.StringQueryParam (loginRequest "/_utils") "next").2 = true ∧
          (hourService.StringQueryParam (loginRequest "/_utils") "next").1 ≠ "") →
        (postSession hourService ResponseWriter.fresh (loginRequest "/_utils")).w.status
          = some 200 ∧
        (postSession hourService ResponseWriter.fresh (loginRequest "/_utils")).w.header =
          ((ResponseWriter.fresh.headerSet "Cache-Control" "must-revalidate").headerAdd
            "Content-Type" TypeJSON).header) :=
  postSession_success_response hourService ResponseWriter.fresh (loginRequest "/_utils")
    (by decide) (by decide) rfl
    (fun x p hx hp => by
      have : p = x := (congrArg Prod.fst hp).symm
      rw [this]
      exact hasPrefix_slash_ne_empty x hx)

/-- C16: whatever the request and without any call to the user store or the
service, `deleteSession` adds the session cookie with an empty value, path
`/`, max-age -1 and HTTP-only, adds `Content-Type: application/json`, sets
`Cache-Control: must-revalidate`, and writes the body with `ok` true; on a
fresh response the status is the default 200. A DELETE on `/_session` is
answered by `deleteSession`. -/
theorem deleteSession_clears_cookie (s : Service) (w : ResponseWriter) (r : Request) :
    deleteSession w r =
      { user := none, err := none
        w :=
          { header := (w.header ++ [("Content-Type", "application/json")]).filter
              (fun p => p.1 != "Cache-Control") ++ [("Cache-Control", "must-revalidate")]
            cookies := w.cookies ++
              [{ Name := SessionCookieName, Value := "", Path := "/", MaxAge := -1,
                 HttpOnly := true }]
            status := some (w.status.getD 200)
            body := w.body ++ [[("ok", .bool true)]] }
        calls := [], panicked := false } ∧
    (deleteSession ResponseWriter.fresh r).w =
      { header := [("Content-Type", "application/json"), ("Cache-Control", "must-revalidate")]
        cookies := [{ Name := SessionCookieName, Value := "", Path := "/", MaxAge := -1,
                      HttpOnly := true }]
        status := some 200
        body := [[("ok", .bool true)]] } ∧
    (r.Path = "/_session" → r.Method = MethodDelete →
      Authenticate s w r = deleteSession w r) := by
  refine ⟨rfl, ?_, ?_⟩
  · simp [deleteSession, ResponseWriter.Encode, ResponseWriter.headerAdd,
      ResponseWriter.SetCookie, ResponseWriter.headerSet, ResponseWriter.fresh, TypeJSON]
  intro hpath hm
  have hne : ¬ (r.Path = "/_session" ∧ r.Method = MethodPost) := by
    rw [hm]
    intro h
    exact absurd h.2 (by decide)
  unfold Authenticate
  rw [if_neg hne, if_pos ⟨hpath, hm⟩]
  rfl

theorem deleteSession_clears_cookie_witness :
    Authenticate exampleService ResponseWriter.fresh
        (exampleRequest "DELETE" "/_session" [("AuthSession", "bob:token")] "")
      = deleteSession ResponseWriter.fresh
        (exampleRequest "DELETE" "/_session" [("AuthSession", "bob:token")] "") :=
  (deleteSession_clears_cookie exampleService ResponseWriter.fresh
    (exampleRequest "DELETE" "/_session" [("AuthSession", "bob:token")] "")).2.2 rfl rfl

theorem splitChars_no_sep (sep : Char) (l : List Char) (h : sep ∉ l) :
    splitChars sep l = [l] := by
  induction l with
  | nil => rfl
  | cons c cs ih =>
    have hc : c ≠ sep := fun hc => h (hc ▸ List.mem_cons_self c cs)
    have hcs : sep ∉ cs := fun hm => h (List.mem_cons_of_mem c hm)
    simp [splitChars, hc, ih hcs]

/-- A piece without the separator, followed by the separator, is the first
piece of the split. -/
theorem splitChars_append (sep : Char) (a rest : List Char) (h : sep ∉ a) :
    splitChars sep (a ++ sep :: rest) = a :: splitChars sep rest := by
  induction a with
  | nil => simp [splitChars]
  | cons c cs ih =>
    have hc : c ≠ sep := fun hc => h (hc ▸ List.mem_cons_self c cs)
    have hcs : sep ∉ cs := fun hm => h (List.mem_cons_of_mem c hm)
    simp [splitChars, hc, ih hcs]

theorem comma_not_mem_natDecimal (n : Nat) : Char.ofNat 44 ∉ natDecimal n := by
  intro hm
  have hall := natDecimal_all_digits n
  rw [List.all_eq_true] at hall
  exact (isDigit_not_special _ (hall _ hm)).2.2 rfl

theorem comma_not_mem_Itoa (n : Int) : Char.ofNat 44 ∉ (Itoa n).data := by
  unfold Itoa
  dsimp only
  split
  · intro hm
    rcases List.mem_cons.mp hm with h | h
    · revert h; decide
    · exact comma_not_mem_natDecimal _ h
  · exact comma_not_mem_natDecimal _

theorem storedHash_data (K S : String) (N : Int) :
    (storedHash K S N).data
      = hashPrefix.data ++ (K.data ++ Char.ofNat 44 :: (S.data ++ Char.ofNat 44 :: (Itoa N).data)) := by
  simp [storedHash, hashPrefix, SchemePBKDF2, String.data_append]

theorem hasPrefix_storedHash (K S : String) (N : Int) :
    HasPrefix (storedHash K S N) hashPrefix = true := by
  unfold HasPrefix
  rw [storedHash_data, List.isPrefixOf_iff_prefix]
  exact List.prefix_append _ _

theorem split_storedHash (K S : String) (N : Int)
    (hK : Char.ofNat 44 ∉ K.data) (hS : Char.ofNat 44 ∉ S.data) :
    Split (TrimPrefix (storedHash K S N) hashPrefix) (Char.ofNat 44) = [K, S, Itoa N] := by
  unfold Split TrimPrefix
  rw [hasPrefix_storedHash, if_pos rfl]
  simp only [storedHash_data, List.drop_left]
  rw [splitChars_append _ _ _ hK, splitChars_append _ _ _ hS,
    splitChars_no_sep _ _ (comma_not_mem_Itoa N)]
  rfl

/-- On an entry of the documented encoding `getKeySaltIter` returns its three
parts. -/
theorem getKeySaltIter_storedHash (c : Conf) (username K S : String) (N : Int)
    (hlook : c.GetContext "admins" username = (storedHash K S N, none))
    (hK : Char.ofNat 44 ∉ K.data) (hS : Char.ofNat 44 ∉ S.data)
    (hlo : -(2 ^ 63) ≤ N) (hhi : N < 2 ^ 63) :
    c.getKeySaltIter username = { key := K, salt := S, iterations := N, err := none } := by
  unfold Conf.getKeySaltIter
  simp only [hlook, hasPrefix_storedHash, split_storedHash K S N hK hS, Atoi_Itoa N hlo hhi]
  rfl

/-- When the lookup of the entry fails, `getKeySaltIter` returns the error of
the lookup. -/
theorem getKeySaltIter_lookup_error (c : Conf) (username : String) (e : GoError)
    (h : (c.GetContext "admins" username).2 = some e) :
    c.getKeySaltIter username = { key := "", salt := "", iterations := 0, err := some e } := by
  unfold Conf.getKeySaltIter
  simp only [h]

theorem statusCode_notFound_some (x : Option GoError) (h : StatusCode x = StatusNotFound) :
    ∃ e, x = some e := by
  cases x with
  | none => simp [StatusCode, StatusNotFound] at h
  | some e => exact ⟨e, rfl⟩

/-- C17: for a username whose `admins` entry is the well-formed hash of
derived key `K`, salt `S` and iteration count `N`, `Validate` succeeds exactly
when `ValidatePBKDF2` holds of the password, `S`, `K` and `N`; on success it
returns the user of that name with the single role `_admin` and salt `S` and a
nil error, on failure a nil user and the Unauthorized error (status 401). -/
theorem confadmin_validate_wellformed (c : Conf) (username password K S : String) (N : Int)
    (hlook : c.GetContext "admins" username = (storedHash K S N, none))
    (hK : Char.ofNat 44 ∉ K.data) (hS : Char.ofNat 44 ∉ S.data)
    (hlo : -(2 ^ 63) ≤ N) (hhi : N < 2 ^ 63) :
    ((c.Validate username password).err = none ↔ c.ValidatePBKDF2 password S K N = true) ∧
    (c.ValidatePBKDF2 password S K N = true →
      (c.Validate username password).user
          = some { Name := username, Roles := ["_admin"], Salt := S } ∧
        (c.Validate username password).err = none) ∧
    (c.ValidatePBKDF2 password S K N = false →
      (c.Validate username password).user = none ∧
        (c.Validate username password).err
          = some (GoError.status StatusUnauthorized "unauthorized") ∧
        StatusUnauthorized = 401) := by
  have hk := getKeySaltIter_storedHash c username K S N hlook hK hS hlo hhi
  unfold Conf.Validate
  simp only [hk]
  cases hv : c.ValidatePBKDF2 password S K N <;> simp [StatusUnauthorized]

theorem confadmin_validate_wellformed_witness :
    (exampleConf.Validate "admin" "secret").user
        = some { Name := "admin", Roles := ["_admin"], Salt := "0f0f" } ∧
      (exampleConf.Validate "admin" "guess").err
        = some (GoError.status StatusUnauthorized "unauthorized") :=
  ⟨((confadmin_validate_wellformed exampleConf "admin" "secret" "abcd" "0f0f" 10
      (by decide) (by decide) (by decide) (by decide) (by decide)).2.1 (by decide)).1,
   ((confadmin_validate_wellformed exampleConf "admin" "guess" "abcd" "0f0f" 10
      (by decide) (by decide) (by decide) (by decide) (by decide)).2.2 (by decide)).2.1⟩

/-- C18: for a username without an entry in the `admins` section, that is,
whose lookup fails with NotFound, `Validate` returns for every password a nil
user and the Unauthorized error, whose status is 401 and not 404, and derives
no key. -/
theorem confadmin_validate_unknown_user (c : Conf) (username password : String)
    (h : StatusCode (c.GetContext "admins" username).2 = StatusNotFound) :
    (c.Validate username password).user = none ∧
      (c.Validate username password).err = some ErrUnauthorized ∧
      StatusCode (c.Validate username password).err = 401 ∧
      StatusCode (c.Validate username password).err ≠ StatusNotFound ∧
      (c.Validate username password).calls = [ConfCall.GetContext "admins" username] := by
  obtain ⟨e, he⟩ := statusCode_notFound_some _ h
  rw [he] at h
  unfold Conf.Validate
  simp only [getKeySaltIter_lookup_error c username e he, h, if_true]
  simp [ErrUnauthorized, StatusCode, StatusUnauthorized, StatusNotFound]

theorem confadmin_validate_unknown_user_witness :
    (exampleConf.Validate "nobody" "secret").err = some ErrUnauthorized ∧
      (exampleConf.Validate "nobody" "secret").user = none :=
  ⟨(confadmin_validate_unknown_user exampleConf "nobody" "secret" (by decide)).2.1,
   (confadmin_validate_unknown_user exampleConf "nobody" "secret" (by decide)).1⟩

/-- C19: `UserCtx` returns a nil user and the NotFound error when the username
has no `admins` entry; when the entry is the well-formed hash of `K`, `S` and
`N` it returns the user of that name with the single role `_admin` and salt
`S`, having looked the entry up and checked no password. -/
theorem confadmin_userCtx (c : Conf) (username : String) :
    (StatusCode (c.GetContext "admins" username).2 = StatusNotFound →
      (c.UserCtx username).user = none ∧
        (c.UserCtx username).err = some ErrNotFound ∧
        StatusCode (c.UserCtx username).err = 404) ∧
    (∀ (K S : String) (N : Int),
      c.GetContext "admins" username = (storedHash K S N, none) →
      Char.ofNat 44 ∉ K.data → Char.ofNat 44 ∉ S.data → -(2 ^ 63) ≤ N → N < 2 ^ 63 →
      (c.UserCtx username).user = some { Name := username, Roles := ["_admin"], Salt := S } ∧
        (c.UserCtx username).err = none ∧
        (c.UserCtx username).calls = [ConfCall.GetContext "admins" username]) ∧
    (∀ password salt key iterations,
      ConfCall.ValidatePBKDF2 password salt key iterations ∉ (c.UserCtx username).calls) := by
  refine ⟨?_, ?_, ?_⟩
  · intro h
    obtain ⟨e, he⟩ := statusCode_notFound_some _ h
    rw [he] at h
    unfold Conf.UserCtx
    simp only [getKeySaltIter_lookup_error c username e he, h, if_true]
    simp [ErrNotFound, StatusCode, StatusNotFound]
  · intro K S N hlook hK hS hlo hhi
    unfold Conf.UserCtx
    simp only [getKeySaltIter_storedHash c username K S N hlook hK hS hlo hhi]
    simp
  · intro password salt key iterations
    unfold Conf.UserCtx
    dsimp only
    split
    · split <;> simp
    · simp

theorem confadmin_userCtx_witness :
    (exampleConf.UserCtx "nobody").err = some ErrNotFound ∧
      (exampleConf.UserCtx "admin").user
        = some { Name := "admin", Roles := ["_admin"], Salt := "0f0f" } :=
  ⟨((confadmin_userCtx exampleConf "nobody").1 (by decide)).2.1,
   ((confadmin_userCtx exampleConf "admin").2.1 "abcd" "0f0f" 10
      (by decide) (by decide) (by decide) (by decide) (by decide)).1⟩

/-- C20: on the stored value made of the prefix, a derived key `K` and a salt
`S` without comma, and the decimal numeral of an integer `N` of the range of
`int`, separated by commas, `getKeySaltIter` returns `K`, `S` and `N` without
error; a stored value that lacks the prefix, or whose remainder does not split
at the commas into exactly three fields, or whose third field is not a decimal
integer, is rejected with an error. -/
theorem getKeySaltIter_exact (c : Conf) (username : String) :
    hashPrefix = "-pbkdf2-" ∧
    (∀ (K S : String) (N : Int),
      c.GetContext "admins" username
          = ("-pbkdf2-" ++ K ++ "," ++ S ++ "," ++ Itoa N, none) →
      Char.ofNat 44 ∉ K.data → Char.ofNat 44 ∉ S.data → -(2 ^ 63) ≤ N → N < 2 ^ 63 →
      c.getKeySaltIter username = { key := K, salt := S, iterations := N, err := none }) ∧
    (∀ hash, c.GetContext "admins" username = (hash, none) →
      (HasPrefix hash hashPrefix = false ∨
        (Split (TrimPrefix hash hashPrefix) (Char.ofNat 44)).length ≠ 3 ∨
        (∃ a b d, Split (TrimPrefix hash hashPrefix) (Char.ofNat 44) = [a, b, d] ∧
          isDecimalInteger d = false)) →
      (c.getKeySaltIter username).err ≠ none ∧
        (c.getKeySaltIter username).key = "" ∧ (c.getKeySaltIter username).salt = "" ∧
        (c.getKeySaltIter username).iterations = 0) := by
  refine ⟨by decide, ?_, ?_⟩
  · intro K S N hlook hK hS hlo hhi
    exact getKeySaltIter_storedHash c username K S N hlook hK hS hlo hhi
  · intro hash hlook hbad
    unfold Conf.getKeySaltIter
    simp only [hlook]
    cases hp : HasPrefix hash hashPrefix with
    | false => simp
    | true =>
      simp only [Bool.not_true, Bool.false_eq_true, if_false]
      rcases hbad with h | h | ⟨a, b, d, hsplit, hd⟩
      · rw [hp] at h; cases h
      · split
        · rename_i heq
          rw [heq] at h
          exact absurd rfl h
        · simp
      · rw [hsplit]
        simp [Atoi_not_decimal d hd]

theorem getKeySaltIter_exact_witness :
    exampleConf.getKeySaltIter "admin"
        = { key := "abcd", salt := "0f0f", iterations := 10, err := none } ∧
      (exampleConf.getKeySaltIter "legacy").err ≠ none :=
  ⟨(getKeySaltIter_exact exampleConf "admin").2.1 "abcd" "0f0f" 10
      (by decide) (by decide) (by decide) (by decide) (by decide),
   ((getKeySaltIter_exact exampleConf "legacy").2.2 "-hashed-abcd,0f0f" (by decide)
      (Or.inl (by decide))).1⟩

/-- The existence probe builds a handle and asks for its info; it destroys
nothing. -/
theorem dbExists_no_destroy {σ : Type} (env : PouchEnv σ) (c : PouchClient) (dbName : String)
    (st : σ) (name : String) :
    PouchCall.Destroy name ∉ (c.DBExistsContext env dbName st).calls := by
  unfold PouchClient.DBExistsContext
  rcases c.options env [("skip_setup", .bool true)] with ⟨opts, _ | err⟩
  · dsimp only
    split
    · simp
    · split <;> simp
  · simp

/-- When the handle's info fails with NotFound the probe reports that the
database does not exist, without error. -/
theorem dbExists_info_notFound {σ : Type} (env : PouchEnv σ) (c : PouchClient)
    (dbName : String) (st : σ) (opts : Options) (e : GoError)
    (ho : c.options env [("skip_setup", .bool true)] = (opts, none))
    (hi : (env.Info (c.dbURL env dbName) opts (env.New (c.dbURL env dbName) opts st)).1 = some e)
    (hs : StatusCode (some e) = StatusNotFound) :
    (c.DBExistsContext env dbName st).result = (false, none) := by
  unfold PouchClient.DBExistsContext
  rw [ho]
  dsimp only
  rw [hi]
  dsimp only
  rw [if_pos hs]

/-- C21: when the existence probe reports that the database does not exist, as
it does when the info call of the probe failed with NotFound,
`DestroyDBContext` returns the NotFound error (status 404) and does not call
`Destroy`; when the probe fails with an error, that error is returned and
`Destroy` is not called. In both cases nothing is called beyond the probe. -/
theorem pouch_destroy_absent {σ : Type} (env : PouchEnv σ) (c : PouchClient)
    (dbName : String) (st : σ) :
    ((c.DBExistsContext env dbName st).result = (false, none) →
      (c.DestroyDBContext env dbName st).result
          = some (GoError.status StatusNotFound "database does not exist") ∧
        StatusNotFound = 404 ∧
        (∀ name, PouchCall.Destroy name ∉ (c.DestroyDBContext env dbName st).calls) ∧
        (c.DestroyDBContext env dbName st).calls = (c.DBExistsContext env dbName st).calls ∧
        (c.DestroyDBContext env dbName st).state = (c.DBExistsContext env dbName st).state) ∧
    (∀ opts e, c.options env [("skip_setup", .bool true)] = (opts, none) →
      (env.Info (c.dbURL env dbName) opts (env.New (c.dbURL env dbName) opts st)).1 = some e →
      StatusCode (some e) = StatusNotFound →
      (c.DBExistsContext env dbName st).result = (false, none)) ∧
    (∀ e, (c.DBExistsContext env dbName st).result.2 = some e →
      (c.DestroyDBContext env dbName st).result = some e ∧
        (∀ name, PouchCall.Destroy name ∉ (c.DestroyDBContext env dbName st).calls) ∧
        (c.DestroyDBContext env dbName st).calls = (c.DBExistsContext env dbName st).calls ∧
        (c.DestroyDBContext env dbName st).state = (c.DBExistsContext env dbName st).state) := by
  refine ⟨?_, ?_, ?_⟩
  · intro h
    have hd : c.DestroyDBContext env dbName st =
        { result := some (GoError.status StatusNotFound "database does not exist")
          state := (c.DBExistsContext env dbName st).state
          calls := (c.DBExistsContext env dbName st).calls } := by
      unfold PouchClient.DestroyDBContext
      simp [h]
    rw [hd]
    refine ⟨rfl, rfl, ?_, rfl, rfl⟩
    intro name
    exact dbExists_no_destroy env c dbName st name
  · intro opts e ho hi hs
    exact dbExists_info_notFound env c dbName st opts e ho hi hs
  · intro e h
    have hd : c.DestroyDBContext env dbName st =
        { result := some e
          state := (c.DBExistsContext env dbName st).state
          calls := (c.DBExistsContext env dbName st).calls } := by
      unfold PouchClient.DestroyDBContext
      simp [h]
    rw [hd]
    refine ⟨rfl, ?_, rfl, rfl⟩
    intro name
    exact dbExists_no_destroy env c dbName st name

theorem pouch_destroy_absent_witness :
    (remoteClient.DestroyDBContext examplePouch "db" []).result
        = some (GoError.status StatusNotFound "database does not exist") ∧
      (remoteClient.DestroyDBContext brokenPouch "db" []).result
        = some (GoError.status 500 "connection lost") :=
  ⟨((pouch_destroy_absent examplePouch remoteClient "db" []).1 (by decide)).1,
   ((pouch_destroy_absent brokenPouch remoteClient "db" []).2.2
      (GoError.status 500 "connection lost") (by decide)).1⟩

/-- C26: for a remote client and a name whose existence probe reports true,
`CreateDBContext` returns the PreconditionFailed error (status 412) and calls
nothing beyond the probe: no handle without `skip_setup` is built, so the
database is neither opened nor created. -/
theorem pouch_create_existing {σ : Type} (env : PouchEnv σ) (c : PouchClient)
    (dbName : String) (st : σ) (hr : c.isRemote = true)
    (he : (c.DBExistsContext env dbName st).result.1 = true) :
    (c.CreateDBContext env dbName st).result
        = some (GoError.status StatusPreconditionFailed "database exists") ∧
      StatusPreconditionFailed = 412 ∧
      (c.CreateDBContext env dbName st).calls = (c.DBExistsContext env dbName st).calls ∧
      (c.CreateDBContext env dbName st).state = (c.DBExistsContext env dbName st).state ∧
      (∀ call ∈ (c.CreateDBContext env dbName st).calls,
        call = PouchCall.New (c.dbURL env dbName) (c.options env [("skip_setup", .bool true)]).1 ∨
        call = PouchCall.Info (c.dbURL env dbName)) := by
  have hd : c.CreateDBContext env dbName st =
      { result := some (GoError.status StatusPreconditionFailed "database exists")
        state := (c.DBExistsContext env dbName st).state
        calls := (c.DBExistsContext env dbName st).calls } := by
    unfold PouchClient.CreateDBContext
    simp [hr, he]
  rw [hd]
  refine ⟨rfl, rfl, rfl, rfl, ?_⟩
  dsimp only
  unfold PouchClient.DBExistsContext
  rcases c.options env [("skip_setup", .bool true)] with ⟨opts, _ | err⟩
  · dsimp only
    split
    · simp
    · split <;> simp
  · simp

theorem pouch_create_existing_witness :
    (remoteClient.CreateDBContext examplePouch "db" ["http://example.com/db"]).result
        = some (GoError.status StatusPreconditionFailed "database exists") ∧
      (remoteClient.CreateDBContext examplePouch "db" ["http://example.com/db"]).state
        = ["http://example.com/db"] :=
  ⟨(pouch_create_existing examplePouch remoteClient "db" ["http://example.com/db"]
      (by decide) (by decide)).1,
   (pouch_create_existing examplePouch remoteClient "db" ["http://example.com/db"]
      (by decide) (by decide)).2.2.2.1.trans (by decide)⟩

/-- On an iterator without `docs` every sequence of calls is answered as on a
closed one, and the row is left alone. -/
theorem findRows_run_closed {δ : Type} (stringify : δ → String) (ops : List RowsOp)
    (row : Row) :
    findRows.run stringify ops ({ docs := none } : findRows δ) row
      = (ops.map closedAnswer, { docs := none }, row) := by
  induction ops with
  | nil => rfl
  | cons op ops ih =>
    cases op with
    | next => simp [findRows.run, findRows.Next, ih, closedAnswer]
    | close => simp [findRows.run, findRows.Close, ih, closedAnswer]

/-- Whatever the iterator, every `Close` of a sequence of calls returns no
error. -/
theorem findRows_run_close_nil {δ : Type} (stringify : δ → String) (ops : List RowsOp)
    (r : findRows δ) (row : Row) :
    ∀ p ∈ List.zip ops (findRows.run stringify ops r row).1,
      p.1 = RowsOp.close → p.2 = none := by
  induction ops generalizing r row with
  | nil => intro p hp; simp [findRows.run] at hp
  | cons op ops ih =>
    intro p hp hc
    cases op with
    | next =>
      simp only [findRows.run, List.zip_cons_cons, List.mem_cons] at hp
      rcases hp with h | h
      · rw [h] at hc; cases hc
      · exact ih _ _ p h hc
    | close =>
      simp only [findRows.run, List.zip_cons_cons, List.mem_cons] at hp
      rcases hp with h | h
      · rw [h]; rfl
      · exact ih _ _ p h hc

/-- C22: `Close` of the find-result iterator returns nil on every call,
before or after exhaustion and however often it is called, and after a first
`Close` every `Next` returns `io.EOF` (and every further `Close` nil), leaving
the caller's row as it is. -/
theorem findRows_close_idempotent {δ : Type} (stringify : δ → String) (r : findRows δ)
    (row : Row) (ops : List RowsOp) :
    r.Close.1 = none ∧
    (∀ p ∈ List.zip ops (findRows.run stringify ops r row).1,
      p.1 = RowsOp.close → p.2 = none) ∧
    (findRows.run stringify ops r.Close.2 row).1 = ops.map closedAnswer ∧
    (findRows.run stringify ops r.Close.2 row).2.2 = row ∧
    (∀ row', (r.Close.2.Next stringify row').1 = some EOF) :=
  ⟨rfl, findRows_run_close_nil stringify ops r row,
   by rw [show r.Close.2 = ({ docs := none } : findRows δ) from rfl, findRows_run_closed],
   by rw [show r.Close.2 = ({ docs := none } : findRows δ) from rfl, findRows_run_closed],
   fun _ => rfl⟩

theorem findRows_close_idempotent_witness :
    (findRows.run id [.next, .close, .next]
        (findRows.Close ({ docs := some ["d1", "d2"] } : findRows String)).2 blankRow).1
      = [RowsOp.next, RowsOp.close, RowsOp.next].map closedAnswer :=
  (findRows_close_idempotent id ({ docs := some ["d1", "d2"] } : findRows String) blankRow
    [.next, .close, .next]).2.2.1

/-- C23: on a find result that holds a list of documents, as many calls of
`Next` as there are documents each succeed and put into the row supplied the
JSON text of the next document, in the order of the list and each document
once; every call after that, and every call when the list is empty or
undefined, returns `io.EOF` and leaves the row as it is. -/
theorem findRows_next_in_order {δ : Type} (stringify : δ → String) (ds : List δ)
    (rows₁ rows₂ : List Row) (h : rows₁.length = ds.length) :
    (findRows.drain stringify (rows₁ ++ rows₂) { docs := some ds }).1
      = List.zipWith (fun row d => (none, { row with Doc := stringify d })) rows₁ ds
          ++ rows₂.map (fun row => (some EOF, row)) ∧
    (findRows.drain stringify rows₂ ({ docs := some [] } : findRows δ)).1
      = rows₂.map (fun row => (some EOF, row)) ∧
    (findRows.drain stringify rows₂ ({ docs := none } : findRows δ)).1
      = rows₂.map (fun row => (some EOF, row)) := by
  have hempty : ∀ rows : List Row,
      (findRows.drain stringify rows ({ docs := some [] } : findRows δ)).1
        = rows.map (fun row => (some EOF, row)) := by
    intro rows
    induction rows with
    | nil => rfl
    | cons row rows ih => simp [findRows.drain, findRows.Next, ih]
  have hundef : ∀ rows : List Row,
      (findRows.drain stringify rows ({ docs := none } : findRows δ)).1
        = rows.map (fun row => (some EOF, row)) := by
    intro rows
    induction rows with
    | nil => rfl
    | cons row rows ih => simp [findRows.drain, findRows.Next, ih]
  refine ⟨?_, hempty rows₂, hundef rows₂⟩
  induction ds generalizing rows₁ with
  | nil =>
    have : rows₁ = [] := List.length_eq_zero.mp h
    subst this
    simpa using hempty rows₂
  | cons d ds ih =>
    cases rows₁ with
    | nil => simp at h
    | cons row rows₁ =>
      have h' : rows₁.length = ds.length := by simpa using h
      simp [findRows.drain, findRows.Next, ih rows₁ h']

theorem findRows_next_in_order_witness :
    (findRows.drain id [blankRow, blankRow, blankRow]
        ({ docs := some ["d1", "d2"] } : findRows String)).1
      = [(none, { blankRow with Doc := "d1" }), (none, { blankRow with Doc := "d2" }),
         (some EOF, blankRow)] :=
  (findRows_next_in_order id ["d1", "d2"] [blankRow, blankRow] [blankRow] rfl).1

/-- C24: when the body of an attachment can be read to its end without error,
`Bytes` returns all the content that remained; a second call right after
returns the same bytes and reads no stream; when reading the stream fails,
`Bytes` returns nil and the error of the read. -/
theorem attachment_bytes (a : Attachment) :
    (∀ s, a.ReadCloser = Body.stream s → s.failure = none →
      a.Bytes.bytes = s.pending ∧ a.Bytes.err = none ∧
      a.Bytes.att.Bytes.bytes = a.Bytes.bytes ∧ a.Bytes.att.Bytes.err = none ∧
      a.Bytes.att.Bytes.streamRead = none ∧ a.Bytes.att.Bytes.att = a.Bytes.att) ∧
    (∀ unread, a.ReadCloser = Body.bufCloser unread →
      a.Bytes.bytes = unread ∧ a.Bytes.err = none ∧ a.Bytes.streamRead = none ∧
      a.Bytes.att = a) ∧
    (∀ s e, a.ReadCloser = Body.stream s → s.failure = some e →
      a.Bytes.bytes = [] ∧ a.Bytes.err = some e) := by
  refine ⟨?_, ?_, ?_⟩
  · intro s hs hf
    simp [Attachment.Bytes, hs, Stream.copyAll, hf]
  · intro unread hu
    simp [Attachment.Bytes, hu]
  · intro s e hs hf
    simp [Attachment.Bytes, hs, Stream.copyAll, hf]

theorem attachment_bytes_witness :
    exampleAttachment.Bytes.bytes = [1, 2, 3] ∧
      exampleAttachment.Bytes.att.Bytes.bytes = exampleAttachment.Bytes.bytes ∧
      exampleAttachment.Bytes.att.Bytes.streamRead = none ∧
      ({ exampleAttachment with
          ReadCloser := .stream { pending := [1], failure := some (GoError.plain "reset") }
        } : Attachment).Bytes.err = some (GoError.plain "reset") :=
  ⟨((attachment_bytes exampleAttachment).1 { pending := [1, 2, 3], failure := none }
      rfl rfl).1,
   ((attachment_bytes exampleAttachment).1 { pending := [1, 2, 3], failure := none }
      rfl rfl).2.2.1,
   ((attachment_bytes exampleAttachment).1 { pending := [1, 2, 3], failure := none }
      rfl rfl).2.2.2.2.1,
   ((attachment_bytes { exampleAttachment with
        ReadCloser := .stream { pending := [1], failure := some (GoError.plain "reset") } }).2.2
      { pending := [1], failure := some (GoError.plain "reset") } (GoError.plain "reset")
      rfl rfl).2⟩

/-- C25: for a backend database without `Rever`, `DB.Rev` of a document that
`Get` fetches returns the `_rev` member of the document fetched, and for a
document for which `Get` fails it fails with the same error, so that for a
missing document both fail with NotFound. -/
theorem dbRev_emulates_get (db : DriverDB) (docID : String) (h : db.Rever = none) :
    (∀ doc, db.Get docID = (doc, none) → DBRev db docID = (revField doc, none)) ∧
    (∀ doc e, db.Get docID = (doc, some e) → DBRev db docID = ("", some e)) ∧
    (StatusCode (db.Get docID).2 = StatusNotFound →
      StatusCode (DBRev db docID).2 = StatusNotFound ∧ (DBRev db docID).2 = (db.Get docID).2) := by
  refine ⟨?_, ?_, ?_⟩
  · intro doc hg
    simp [DBRev, h, hg]
  · intro doc e hg
    simp [DBRev, h, hg]
  · intro hs
    obtain ⟨e, he⟩ := statusCode_notFound_some _ hs
    have hg : db.Get docID = ((db.Get docID).1, some e) := by rw [← he]
    have hr : DBRev db docID = ("", some e) := by
      unfold DBRev
      rw [h]
      dsimp only
      rw [hg]
    rw [hr, he]
    rw [he] at hs
    exact ⟨hs, rfl⟩

theorem dbRev_emulates_get_witness :
    DBRev exampleDB "bob" = ("1-abc", none) ∧
      StatusCode (DBRev exampleDB "bogus").2 = StatusNotFound :=
  ⟨(dbRev_emulates_get exampleDB "bob" rfl).1
      [("_id", .str "bob"), ("_rev", .str "1-abc")] (by decide),
   ((dbRev_emulates_get exampleDB "bogus" rfl).2.2 (by decide)).1⟩

/-- When the lookup of the timeout fails with an error that is not NotFound,
`getSessionTimeout` returns that error. -/
theorem getSessionTimeout_lookup_error (s : Service) (e : GoError)
    (he : (s.ConfigGet "couch_httpd_auth" "timeout").2 = some e)
    (hne : StatusCode (some e) ≠ StatusNotFound) :
    (getSessionTimeout s).1 = (0, some e) := by
  simp [getSessionTimeout, he, hne]

/-- C27: `postSession` checks in this order: the body is parsed, the name is
present, the store validates the credentials, the session timeout resolves,
the redirect target is valid, the token is created; it returns the error of
the first of these that fails and then leaves the response as it was. So for
accepted credentials, an invalid redirect target and a timeout lookup that
fails with an error other than NotFound, the error returned is that of the
lookup. -/
theorem postSession_check_order (s : Service) (w : ResponseWriter) (r : Request) :
    ((s.BindParams r).2 ≠ none →
      (postSession s w r).err
          = some (GoError.status StatusBadRequest "unable to parse request data") ∧
        (postSession s w r).w = w ∧ (postSession s w r).calls = []) ∧
    ((s.BindParams r).2 = none → (s.BindParams r).1.Name = none →
      (postSession s w r).err
          = some (GoError.status StatusBadRequest "request body must contain a username") ∧
        (postSession s w r).w = w ∧ (postSession s w r).calls = []) ∧
    (∀ name, (s.BindParams r).2 = none → (s.BindParams r).1.Name = some name →
      (∀ e, (s.Validate name (s.BindParams r).1.Password).2 = some e →
        (postSession s w r).err = some e ∧ (postSession s w r).w = w) ∧
      ((s.Validate name (s.BindParams r).1.Password).2 = none →
        (∀ e, (getSessionTimeout s).1.2 = some e →
          (postSession s w r).err = some e ∧ (postSession s w r).w = w) ∧
        ((getSessionTimeout s).1.2 = none →
          (∀ e, (redirectURL s r).2 = some e →
            (postSession s w r).err = some e ∧ (postSession s w r).w = w) ∧
          ((redirectURL s r).2 = none →
            ∀ user e, (s.Validate name (s.BindParams r).1.Password).1 = some user →
              (s.CreateAuthToken name user.Salt s.Now).2 = some e →
              (postSession s w r).err = some e ∧ (postSession s w r).w = w)))) ∧
    (∀ name next e, (s.BindParams r).2 = none → (s.BindParams r).1.Name = some name →
      (s.Validate name (s.BindParams r).1.Password).2 = none →
      s.StringQueryParam r "next" = (next, true) →
      (HasPrefix next "/" = false ∨ HasPrefix next "//" = true) →
      (s.ConfigGet "couch_httpd_auth" "timeout").2 = some e →
      StatusCode (some e) ≠ StatusNotFound →
      (postSession s w r).err = some e ∧ (postSession s w r).w = w) := by
  have step : ∀ name, (s.BindParams r).2 = none → (s.BindParams r).1.Name = some name →
      (s.Validate name (s.BindParams r).1.Password).2 = none →
      ∀ e, (getSessionTimeout s).1.2 = some e →
        (postSession s w r).err = some e ∧ (postSession s w r).w = w := by
    intro name hb hn hv e ht
    rw [postSession_named s w r name hb hn, hv]
    dsimp only
    rw [ht]
    exact ⟨rfl, rfl⟩
  refine ⟨?_, ?_, ?_, ?_⟩
  · intro hb
    cases hb' : (s.BindParams r).2 with
    | none => exact absurd hb' hb
    | some e =>
      unfold postSession
      dsimp only
      rw [hb']
      exact ⟨rfl, rfl, rfl⟩
  · intro hb hn
    rw [postSession_no_name s w r hn]
    simp [hb]
  · intro name hb hn
    refine ⟨?_, ?_⟩
    · intro e hv
      rw [postSession_named s w r name hb hn, hv]
      exact ⟨rfl, rfl⟩
    · intro hv
      refine ⟨step name hb hn hv, ?_⟩
      intro ht
      refine ⟨?_, ?_⟩
      · intro e hr
        rw [postSession_named s w r name hb hn, hv]
        dsimp only
        rw [ht]
        dsimp only
        rw [hr]
        exact ⟨rfl, rfl⟩
      · intro hr user e hu hk
        rw [postSession_named s w r name hb hn, hv]
        dsimp only
        rw [ht]
        dsimp only
        rw [hr]
        dsimp only
        rw [hu]
        dsimp only
        rw [hk]
        exact ⟨rfl, rfl⟩
  · intro name next e hb hn hv _ _ he hne
    have ht : (getSessionTimeout s).1.2 = some e := by
      rw [getSessionTimeout_lookup_error s e he hne]
    exact step name hb hn hv e ht

theorem postSession_check_order_witness :
    (postSession brokenConfigService ResponseWriter.fresh (loginRequest "//evil.example")).err
        = some (GoError.status 500 "config unavailable") ∧
      (postSession brokenConfigService ResponseWriter.fresh (loginRequest "//evil.example")).w
        = ResponseWriter.fresh :=
  (postSession_check_order brokenConfigService ResponseWriter.fresh
    (loginRequest "//evil.example")).2.2.2 "bob" "//evil.example"
    (GoError.status 500 "config unavailable") rfl rfl (by decide) (by decide)
    (Or.inr (by decide)) rfl (by decide)

/-- C28: over one configuration, whenever `Validate` of a username and a
password succeeds, `UserCtx` of that username succeeds too and returns the
same user: the name, the single role `_admin` and the same salt. -/
theorem confadmin_validate_userCtx_agree (c : Conf) (username password : String)
    (h : (c.Validate username password).err = none) :
    (c.UserCtx username).err = none ∧
      (c.UserCtx username).user = (c.Validate username password).user ∧
      ∃ salt, (c.Validate username password).user
        = some { Name := username, Roles := ["_admin"], Salt := salt } := by
  unfold Conf.Validate at h ⊢
  unfold Conf.UserCtx
  dsimp only at h ⊢
  cases hk : (c.getKeySaltIter username).err with
  | some e =>
    rw [hk] at h
    dsimp only at h
    split at h <;> simp at h
  | none =>
    rw [hk] at h
    dsimp only at h ⊢
    cases hv : c.ValidatePBKDF2 password (c.getKeySaltIter username).salt
        (c.getKeySaltIter username).key (c.getKeySaltIter username).iterations with
    | false => rw [hv] at h; simp at h
    | true => simp

theorem confadmin_validate_userCtx_agree_witness :
    (exampleConf.UserCtx "admin").err = none ∧
      (exampleConf.UserCtx "admin").user = (exampleConf.Validate "admin" "secret").user ∧
      ∃ salt, (exampleConf.Validate "admin" "secret").user
        = some { Name := "admin", Roles := ["_admin"], Salt := salt } :=
  confadmin_validate_userCtx_agree exampleConf "admin" "secret" (by decide)

theorem memconf_delete_no_section (c : MemConfig) (secName key : String)
    (hs : c secName = none) :
    c.DeleteContext secName key
      = (some (GoError.status StatusNotFound "configuration section not found"), c) := by
  unfold MemConfig.DeleteContext
  rw [hs]

theorem memconf_delete_no_key (c : MemConfig) (secName key : String)
    (sec : String → Option String) (hs : c secName = some sec) (hk : sec key = none) :
    c.DeleteContext secName key
      = (some (GoError.status StatusNotFound "configuration key not found"), c) := by
  unfold MemConfig.DeleteContext
  rw [hs]
  dsimp only
  rw [hk]

theorem memconf_delete_present (c : MemConfig) (secName key v : String)
    (sec : String → Option String) (hs : c secName = some sec) (hk : sec key = some v) :
    c.DeleteContext secName key
      = (none, mapUpdate c secName (some (mapUpdate sec key none))) := by
  unfold MemConfig.DeleteContext
  rw [hs]
  dsimp only
  rw [hk]

/-- C29: `DeleteContext` fails exactly when the section is absent or the key
is absent from the section, then with a NotFound error (status 404) and with
the configuration unchanged; otherwise it succeeds, removes that key, leaves
every other key of the section and every other section as they were, and
keeps the section, be it empty. -/
theorem memconf_delete (c : MemConfig) (secName key : String) :
    ((c.DeleteContext secName key).1 ≠ none ↔ c.entry secName key = none) ∧
    (c.entry secName key = none ↔
      (c secName = none ∨ ∃ sec, c secName = some sec ∧ sec key = none)) ∧
    (c.entry secName key = none →
      StatusCode (c.DeleteContext secName key).1 = 404 ∧
        (c.DeleteContext secName key).2 = c) ∧
    (∀ v, c.entry secName key = some v →
      (c.DeleteContext secName key).1 = none ∧
        (c.DeleteContext secName key).2.entry secName key = none ∧
        ((c.DeleteContext secName key).2 secName).isSome = true ∧
        (∀ k, k ≠ key →
          (c.DeleteContext secName key).2.entry secName k = c.entry secName k) ∧
        (∀ s, s ≠ secName → (c.DeleteContext secName key).2 s = c s)) := by
  cases hs : c secName with
  | none =>
    have he : c.entry secName key = none := by simp [MemConfig.entry, hs]
    rw [memconf_delete_no_section c secName key hs, he]
    refine ⟨by simp, by simp, fun _ => ⟨rfl, rfl⟩, ?_⟩
    intro v hv
    cases hv
  | some sec =>
    cases hk : sec key with
    | none =>
      have he : c.entry secName key = none := by simp [MemConfig.entry, hs, hk]
      rw [memconf_delete_no_key c secName key sec hs hk, he]
      refine ⟨by simp, by simp [hk], fun _ => ⟨rfl, rfl⟩, ?_⟩
      intro v hv
      cases hv
    | some v =>
      have he : c.entry secName key = some v := by simp [MemConfig.entry, hs, hk]
      rw [memconf_delete_present c secName key v sec hs hk, he]
      refine ⟨by simp, by simp [hk], ?_, ?_⟩
      · intro h; cases h
      · intro v' _
        refine ⟨rfl, by simp [MemConfig.entry, mapUpdate], by simp [mapUpdate], ?_, ?_⟩
        · intro k hne
          simp [MemConfig.entry, mapUpdate, hne, hs]
        · intro s hne
          simp [mapUpdate, hne]

theorem memconf_delete_witness :
    (exampleMemConfig.DeleteContext "httpd" "port").1 = none ∧
      (exampleMemConfig.DeleteContext "httpd" "port").2.entry "httpd" "port" = none ∧
      (exampleMemConfig.DeleteContext "httpd" "port").2.entry "httpd" "bind"
        = exampleMemConfig.entry "httpd" "bind" ∧
      StatusCode (exampleMemConfig.DeleteContext "log" "level").1 = 404 :=
  ⟨((memconf_delete exampleMemConfig "httpd" "port").2.2.2 "5984" (by decide)).1,
   ((memconf_delete exampleMemConfig "httpd" "port").2.2.2 "5984" (by decide)).2.1,
   ((memconf_delete exampleMemConfig "httpd" "port").2.2.2 "5984" (by decide)).2.2.2.1
      "bind" (by decide),
   ((memconf_delete exampleMemConfig "log" "level").2.2.1 (by decide)).1⟩

/-- C30: `SetContext` never fails; afterwards the tree that `GetAllContext`
returns holds the value for the key of the section, every other key of the
section and every other section are as before, and a following
`DeleteContext` of that section and key succeeds. -/
theorem memconf_set (c : MemConfig) (secName key value : String) :
    (c.SetContext secName key value).1 = none ∧
    ((c.SetContext secName key value).2.GetAllContext).2 = none ∧
    ((c.SetContext secName key value).2.GetAllContext).1.entry secName key = some value ∧
    (∀ k, k ≠ key →
      ((c.SetContext secName key value).2.GetAllContext).1.entry secName k
        = c.entry secName k) ∧
    (∀ s, s ≠ secName → ((c.SetContext secName key value).2.GetAllContext).1 s = c s) ∧
    ((c.SetContext secName key value).2.DeleteContext secName key).1 = none := by
  have hset : (c.SetContext secName key value).2 secName
      = some (mapUpdate (match c secName with
          | none => fun _ => none
          | some sec => sec) key (some value)) := by
    simp [MemConfig.SetContext, mapUpdate]
  refine ⟨rfl, rfl, ?_, ?_, ?_, ?_⟩
  · simp [MemConfig.GetAllContext, MemConfig.entry, hset, mapUpdate]
  · intro k hne
    cases hs : c secName <;>
      simp [MemConfig.GetAllContext, MemConfig.entry, MemConfig.SetContext, mapUpdate, hne, hs]
  · intro s hne
    simp [MemConfig.GetAllContext, MemConfig.SetContext, mapUpdate, hne]
  · rw [memconf_delete_present _ secName key value _ hset (by simp [mapUpdate])]

theorem memconf_set_witness :
    (exampleMemConfig.SetContext "httpd" "port" "80").2.GetAllContext.1.entry "httpd" "port"
        = some "80" ∧
      (exampleMemConfig.SetContext "httpd" "port" "80").2.GetAllContext.1.entry "httpd" "bind"
        = exampleMemConfig.entry "httpd" "bind" ∧
      (exampleMemConfig.SetContext "log" "level" "info").2.GetAllContext.1 "httpd"
        = exampleMemConfig "httpd" :=
  ⟨(memconf_set exampleMemConfig "httpd" "port" "80").2.2.1,
   (memconf_set exampleMemConfig "httpd" "port" "80").2.2.2.1 "bind" (by decide),
   (memconf_set exampleMemConfig "log" "level" "info").2.2.2.2.1 "httpd" (by decide)⟩

end Kivik
